import Mathlib

/-!
Shallow embedding of the sales-analytics data pipeline of this repository
(normalizer, ingestor quality report, aggregation engine, basket builder,
association miner, per-SKU linear-regression forecaster), together with
theorems checking the specification's claims against it.

JS strings are modelled as `List Char`; JS numbers as exact rationals,
with an explicit `JSNum` type (finite / infinities / NaN) at the places
where the source can produce a non-finite value (division, and raw
spreadsheet cells that may hold NaN).  Host-dependent `Date` parsing is
abstracted as a function parameter.  Numeric spreadsheet code cells
(management code, product code) are modelled as natural numbers rendered
in decimal, which covers every value the claims mention.
-/

namespace Circle

/-- JS strings, modelled as lists of characters. -/
abbrev Str := List Char

/-- A JS number as produced by arithmetic: a finite rational, an infinity, or NaN. -/
inductive JSNum where
  | num (q : ℚ)
  | inf
  | ninf
  | nan
deriving DecidableEq

/-- JS division `a / b` on finite operands: division by zero yields ±Infinity or NaN. -/
def jsDiv (a b : ℚ) : JSNum :=
  if b = 0 then (if a = 0 then .nan else if 0 < a then .inf else .ninf)
  else .num (a / b)

/-- Multiplication of a JS number by the positive constant 100 (used for percentages). -/
def jsMul100 : JSNum → JSNum
  | .num q => .num (q * 100)
  | .inf => .inf
  | .ninf => .ninf
  | .nan => .nan

/-- JS comparison `x >= y` where `x` is finite: comparisons with NaN are false. -/
def jsGeQ (x : ℚ) : JSNum → Bool
  | .num q => decide (q ≤ x)
  | .inf => false
  | .ninf => true
  | .nan => false

/-- JS comparison `x < y` where `x` is finite: comparisons with NaN are false. -/
def jsLtQ (x : ℚ) : JSNum → Bool
  | .num q => decide (x < q)
  | .inf => true
  | .ninf => false
  | .nan => false

/-- A raw numeric spreadsheet cell: a finite number or NaN. -/
inductive CellNum where
  | num (q : ℚ)
  | nan
deriving DecidableEq

/-- A raw spreadsheet cell that the source types as `string | number`. -/
inductive RawValue where
  | vStr (s : Str)
  | vNum (n : ℕ)
deriving DecidableEq

/-- Whitespace characters recognised by the model of `String.prototype.trim`. -/
def isWsChar (c : Char) : Bool :=
  c == ' ' || c == '\t' || c == '\n' || c == '\r'

/-- JS `String.prototype.trim`: strip leading and trailing whitespace. -/
def jsTrim (s : Str) : Str :=
  ((s.dropWhile isWsChar).reverse.dropWhile isWsChar).reverse

/-- JS `replace(/\s+/g, ' ')`: collapse each whitespace run to a single space.
The flag records whether the previous character was whitespace. -/
def collapseWsAux : Bool → Str → Str
  | _, [] => []
  | prevWs, c :: rest =>
    if isWsChar c then
      (if prevWs then [] else [' ']) ++ collapseWsAux true rest
    else c :: collapseWsAux false rest

/-- Collapse whitespace runs to single spaces (model of `replace(/\s+/g, ' ')`). -/
def collapseWs (s : Str) : Str := collapseWsAux false s

/-- Decimal rendering of a natural number, fuel-indexed so that it is structural. -/
def natToCharsAux : ℕ → ℕ → Str
  | 0, _ => []
  | fuel + 1, n =>
    if n < 10 then [Nat.digitChar n]
    else natToCharsAux fuel (n / 10) ++ [Nat.digitChar (n % 10)]

/-- Model of JS `String(n)` for a natural number: its decimal representation. -/
def natToChars (n : ℕ) : Str := natToCharsAux (n + 1) n

/-- JS `String(v)` for a `string | number` cell. -/
def RawValue.jsToString : RawValue → Str
  | .vStr s => s
  | .vNum n => natToChars n

/-- JS truthiness of a `string | number` value: `""` and `0` are falsy. -/
def RawValue.truthy : RawValue → Bool
  | .vStr s => !s.isEmpty
  | .vNum n => n != 0

/-- The `UNKNOWN` sentinel. -/
def UNKNOWN : Str := "UNKNOWN".toList

/-- The `INVALID` SKU sentinel. -/
def INVALID : Str := "INVALID".toList

/-- First match of the regex `/\d{5}/`: the leftmost position at which five
consecutive digit characters start. -/
def find5Digits : Str → Option Str
  | [] => none
  | c :: rest =>
    let cand := (c :: rest).take 5
    if cand.length == 5 && cand.all Char.isDigit then some cand
    else find5Digits rest

/-- `extractGerenciaCode`: coerce to string, trim, and return the first match of
`/\d{5}/`, or `UNKNOWN`. -/
def extractGerenciaCode (gerencia : Option RawValue) : Str :=
  match gerencia with
  | none => UNKNOWN
  | some v =>
    let gerenciaStr := jsTrim v.jsToString
    if gerenciaStr.isEmpty then UNKNOWN
    else
      match find5Digits gerenciaStr with
      | some m => m
      | none => UNKNOWN

/-- JS `padStart(target, c)`: left-pad to the target length (no-op when already long enough). -/
def jsPadStart (s : Str) (target : ℕ) (c : Char) : Str :=
  List.replicate (target - s.length) c ++ s

/-- `normalizeSKU`: strip non-digits; `INVALID` when 0 or more than 6 digits remain;
otherwise left-pad with zeros to 5 characters. -/
def normalizeSKU (codigoProduto : Option RawValue) : Str :=
  match codigoProduto with
  | none => INVALID
  | some v =>
    let sku := jsTrim v.jsToString
    let numericSku := sku.filter Char.isDigit
    if numericSku.length == 0 || numericSku.length > 6 then INVALID
    else jsPadStart numericSku 5 '0'

/-- Result of `parseCiclo`. -/
structure CicloInfo where
  label : Str
  index : ℤ
  mes : ℕ
  ano : ℕ
deriving DecidableEq

/-- Numeric value of a digit character. -/
def digitVal (c : Char) : ℕ := c.toNat - 48

/-- Try to read a slash-or-hyphen separator followed by four digits, returning the four-digit year. -/
def trySepYear : Str → Option ℕ
  | sep :: rest =>
    if (sep == '/' || sep == '-')
        && (rest.take 4).length == 4 && (rest.take 4).all Char.isDigit then
      some ((rest.take 4).foldl (fun a c => a * 10 + digitVal c) 0)
    else none
  | [] => none

/-- Try to match the regex `digits-separator-year (month 1 or 2 digits, year 4 digits)` anchored at the current position,
with the greedy (two digits first) backtracking order of the source regex. -/
def tryCicloAt : Str → Option (ℕ × ℕ)
  | [] => none
  | d1 :: rest =>
    if d1.isDigit then
      match rest with
      | d2 :: rest2 =>
        if d2.isDigit then
          match trySepYear rest2 with
          | some ano => some (10 * digitVal d1 + digitVal d2, ano)
          | none =>
            match trySepYear rest with
            | some ano => some (digitVal d1, ano)
            | none => none
        else
          match trySepYear rest with
          | some ano => some (digitVal d1, ano)
          | none => none
      | [] => none
    else none

/-- Leftmost match of `digits-separator-year (month 1 or 2 digits, year 4 digits)` anywhere in the string. -/
def findCiclo : Str → Option (ℕ × ℕ)
  | [] => none
  | c :: rest =>
    match tryCicloAt (c :: rest) with
    | some r => some r
    | none => findCiclo rest

/-- The failure value of `parseCiclo`. -/
def cicloUnknown : CicloInfo := ⟨UNKNOWN, -1, 0, 0⟩

/-- `parseCiclo`: match `MM/YYYY` or `MM-YYYY`, validate ranges, and build the index. -/
def parseCiclo (cicloString : Option Str) : CicloInfo :=
  match cicloString with
  | none => cicloUnknown
  | some s =>
    if s.isEmpty then cicloUnknown
    else
      match findCiclo s with
      | none => cicloUnknown
      | some (mes, ano) =>
        if mes < 1 || mes > 12 || ano < 2000 || ano > 2100 then cicloUnknown
        else ⟨jsTrim s, (ano * 12 + mes : ℤ), mes, ano⟩

/-- `normalizeNomeRevendedora`: trim, collapse whitespace, upper-case; falsy input
gives `UNKNOWN`. -/
def normalizeNomeRevendedora (nome : Option Str) : Str :=
  match nome with
  | none => UNKNOWN
  | some s =>
    if s.isEmpty then UNKNOWN
    else (collapseWs (jsTrim s)).map Char.toUpper

/-- `normalizeNomeProduto`: trim and collapse whitespace; falsy input gives `UNKNOWN`. -/
def normalizeNomeProduto (nome : Option Str) : Str :=
  match nome with
  | none => UNKNOWN
  | some s =>
    if s.isEmpty then UNKNOWN
    else collapseWs (jsTrim s)

/-- Unify en-dash, em-dash and minus-sign to an ASCII hyphen. -/
def unifyHyphen (c : Char) : Char :=
  if c == '–' || c == '—' || c == '−' then '-' else c

/-- Is the string about to match `\s*-\s*` (optional whitespace then a hyphen)? -/
def atHyphenRun (l : Str) : Bool :=
  match l.dropWhile isWsChar with
  | '-' :: _ => true
  | _ => false

/-- Consume one `\s*-\s*` match: the leading whitespace, the hyphen, and the
trailing whitespace. -/
def afterHyphenRun (l : Str) : Str :=
  ((l.dropWhile isWsChar).drop 1).dropWhile isWsChar

/-- Model of `replace(/\s*-\s*/g, ' - ')`, fuel-indexed so that it is structural. -/
def fixHyphenAux : ℕ → Str → Str
  | 0, l => l
  | fuel + 1, l =>
    match l with
    | [] => []
    | c :: rest =>
      if atHyphenRun (c :: rest) then
        ' ' :: '-' :: ' ' :: fixHyphenAux fuel (afterHyphenRun (c :: rest))
      else c :: fixHyphenAux fuel rest

/-- `normalizeMeioCaptacao`: trim, collapse whitespace, unify hyphen variants and
force one space on each side of a hyphen; falsy input gives `UNKNOWN`. -/
def normalizeMeioCaptacao (meio : Option Str) : Str :=
  match meio with
  | none => UNKNOWN
  | some s =>
    if s.isEmpty then UNKNOWN
    else
      let t := (collapseWs (jsTrim s)).map unifyHyphen
      fixHyphenAux (t.length + 1) t

/-- Delivery category. -/
inductive Entrega where
  | FRETE
  | RETIRADA
  | UNKNOWN
deriving DecidableEq

/-- JS `String.prototype.includes` on character lists. -/
def strIncludes (s pat : Str) : Bool :=
  s.tails.any (fun t => pat.isPrefixOf t)

/-- `categorizarEntrega`: lower-case substring match on the delivery-type text. -/
def categorizarEntrega (tipoEntrega : Option Str) : Entrega :=
  match tipoEntrega with
  | none => .UNKNOWN
  | some s =>
    if s.isEmpty then .UNKNOWN
    else
      let normalizado := jsTrim (s.map Char.toLower)
      if strIncludes normalizado "endereço".toList
          || strIncludes normalizado "endereco".toList then .FRETE
      else if strIncludes normalizado "retirar".toList
          || strIncludes normalizado "central".toList then .RETIRADA
      else .UNKNOWN

/-- Transaction type. -/
inductive Tipo where
  | Venda
  | Brinde
  | Doacao
  | Outro
deriving DecidableEq, Inhabited

/-- `normalizeTipo`: case-insensitive exact match against the known type names. -/
def normalizeTipo (tipo : Option Str) : Tipo :=
  match tipo with
  | none => .Outro
  | some s =>
    if s.isEmpty then .Outro
    else
      let normalizado := jsTrim (s.map Char.toLower)
      if normalizado = "venda".toList then .Venda
      else if normalizado = "brinde".toList then .Brinde
      else if normalizado = "doação".toList || normalizado = "doacao".toList then .Doacao
      else .Outro

/-- `normalizeDataCaptacao`: falsy input gives null; otherwise the host
`Date`-parsing-and-formatting step, abstracted as `parseDate`. -/
def normalizeDataCaptacao (parseDate : Str → Option Str) (data : Option Str) : Option Str :=
  match data with
  | none => none
  | some s => if s.isEmpty then none else parseDate s

/-- `sanitizeNumber`: NaN/absent coerces to the default, otherwise clamp to `max 0`. -/
def sanitizeNumber (value : Option CellNum) (defaultValue : ℚ) : ℚ :=
  match value with
  | none => defaultValue
  | some .nan => defaultValue
  | some (.num q) => max 0 q

/-- The source's negative-value check `raw.X !== undefined && raw.X < 0`
(false for absent and for NaN). -/
def isNegCell : Option CellNum → Bool
  | some (.num q) => decide (q < 0)
  | _ => false

/-- `generateTransactionId`: `nome|ciclo`, plus `|data` when the capture date is truthy. -/
def generateTransactionId (nomeRevendedora cicloLabel : Str) (dataCaptacao : Option Str) : Str :=
  let base := nomeRevendedora ++ '|' :: cicloLabel
  match dataCaptacao with
  | some d => if d.isEmpty then base else base ++ '|' :: d
  | none => base

/-- A raw spreadsheet row (every field optional, as in the source's `RawRow`). -/
structure RawRow where
  Gerencia : Option RawValue
  Setor : Option Str
  CodigoRevendedora : Option RawValue
  NomeRevendedora : Option Str
  QuantidadePontos : Option CellNum
  CicloCaptacao : Option Str
  CodigoProduto : Option RawValue
  NomeProduto : Option Str
  Tipo : Option Str
  DataCaptacao : Option Str
  QuantidadeItens : Option CellNum
  ValorPraticado : Option CellNum
  MeioCaptacao : Option Str
  TipoEntrega : Option Str

/-- A fully-absent raw row. -/
def RawRow.empty : RawRow :=
  ⟨none, none, none, none, none, none, none, none, none, none, none, none, none, none⟩

/-- The canonical normalized record (`NormalizedRow` in the source). -/
structure NormalizedRow where
  GerenciaCode : Str
  Setor : Str
  NomeRevendedora : Str
  QuantidadePontos : ℚ
  CicloLabel : Str
  CicloIndex : ℤ
  SKU : Str
  NomeProduto : Str
  Tipo : Tipo
  DataCaptacao : Option Str
  QuantidadeItens : ℚ
  ValorPraticado : ℚ
  ValorLinhaVenda : ℚ
  MeioCaptacao : Str
  EntregaCategoria : Entrega
  TransactionId : Str
  rowIndex : ℕ
  hasErrors : Bool
  errors : List Str
deriving DecidableEq

instance : Inhabited NormalizedRow :=
  ⟨⟨[], [], [], 0, [], 0, [], [], .Outro, none, 0, 0, 0, [], .UNKNOWN, [], 0, false, []⟩⟩

/-- The five per-category error counters of the quality report. -/
structure ErrosCount where
  gerenciaInvalida : ℕ
  cicloInvalido : ℕ
  skuInvalido : ℕ
  valorNegativo : ℕ
  camposFaltantes : ℕ
deriving DecidableEq

/-- The ingestion quality report (`DataQuality` in the source). -/
structure DataQuality where
  totalLinhas : ℕ
  linhasValidas : ℕ
  linhasComErro : ℕ
  percentualValidas : JSNum
  erros : ErrosCount
  avisos : List Str
deriving DecidableEq

/-- One step of the `normalizeData` loop: normalize one raw row (with its index)
and report the error messages and per-category counter increments of that row.
This follows the current revision of `normalizeData` (the one with the
`CodigoRevendedora` fallback, where `ValorLinhaVenda` is the practiced value
itself, not multiplied by quantity). -/
def normalizeRow (parseDate : Str → Option Str) (raw : RawRow) (index : ℕ) :
    NormalizedRow × ErrosCount :=
  let GerenciaCode := extractGerenciaCode raw.Gerencia
  let gerErr := GerenciaCode = UNKNOWN
  let Setor := match raw.Setor with
    | none => UNKNOWN
    | some s => let t := jsTrim s; if t.isEmpty then UNKNOWN else t
  let nome0 := normalizeNomeRevendedora raw.NomeRevendedora
  let NomeRevendedora :=
    if nome0 = UNKNOWN then
      match raw.CodigoRevendedora with
      | some cv => if cv.truthy then "CLIENTE_".toList ++ jsTrim cv.jsToString else nome0
      | none => nome0
    else nome0
  let nomeErr := NomeRevendedora = UNKNOWN
  let QuantidadePontos := sanitizeNumber raw.QuantidadePontos 0
  let ciclo := parseCiclo raw.CicloCaptacao
  let cicloErr := ciclo.index = -1
  let SKU := normalizeSKU raw.CodigoProduto
  let skuErr := SKU = INVALID
  let NomeProduto := normalizeNomeProduto raw.NomeProduto
  let Tipo := normalizeTipo raw.Tipo
  let DataCaptacao := normalizeDataCaptacao parseDate raw.DataCaptacao
  let QuantidadeItens := sanitizeNumber raw.QuantidadeItens 0
  let qtdNeg := isNegCell raw.QuantidadeItens
  let ValorPraticado := sanitizeNumber raw.ValorPraticado 0
  let valNeg := isNegCell raw.ValorPraticado
  let ValorLinhaVenda := if Tipo = .Venda then ValorPraticado else 0
  let MeioCaptacao := normalizeMeioCaptacao raw.MeioCaptacao
  let EntregaCategoria := categorizarEntrega raw.TipoEntrega
  let TransactionId := generateTransactionId NomeRevendedora ciclo.label DataCaptacao
  let errors : List Str :=
    (if gerErr then ["Gerência inválida ou ausente".toList] else [])
    ++ (if nomeErr then ["Nome revendedora ausente".toList] else [])
    ++ (if cicloErr then ["Ciclo inválido ou ausente".toList] else [])
    ++ (if skuErr then ["SKU inválido ou ausente".toList] else [])
    ++ (if qtdNeg then ["Quantidade negativa".toList] else [])
    ++ (if valNeg then ["Valor praticado negativo".toList] else [])
  (⟨GerenciaCode, Setor, NomeRevendedora, QuantidadePontos, ciclo.label, ciclo.index,
    SKU, NomeProduto, Tipo, DataCaptacao, QuantidadeItens, ValorPraticado,
    ValorLinhaVenda, MeioCaptacao, EntregaCategoria, TransactionId,
    index, !errors.isEmpty, errors⟩,
   ⟨if gerErr then 1 else 0,
    if cicloErr then 1 else 0,
    if skuErr then 1 else 0,
    (if qtdNeg then 1 else 0) + (if valNeg then 1 else 0),
    if nomeErr then 1 else 0⟩)

/-- Accumulate the per-row counters, valid-row and error-row counts over the rows. -/
def accumulateRows (parseDate : Str → Option Str) (rawData : List RawRow) :
    List NormalizedRow × ErrosCount × ℕ × ℕ :=
  (rawData.enum.foldl
    (fun acc (ir : ℕ × RawRow) =>
      let (rows, errs, validas, comErro) := acc
      let (row, d) := normalizeRow parseDate ir.2 ir.1
      (rows ++ [row],
       ⟨errs.gerenciaInvalida + d.gerenciaInvalida,
        errs.cicloInvalido + d.cicloInvalido,
        errs.skuInvalido + d.skuInvalido,
        errs.valorNegativo + d.valorNegativo,
        errs.camposFaltantes + d.camposFaltantes⟩,
       validas + (if row.hasErrors then 0 else 1),
       comErro + (if row.hasErrors then 1 else 0)))
    ([], ⟨0, 0, 0, 0, 0⟩, 0, 0))

/-- The warning messages generated from the error counters. -/
def buildAvisos (erros : ErrosCount) : List Str :=
  (if 0 < erros.gerenciaInvalida then
     [natToChars erros.gerenciaInvalida ++ " linhas com gerência inválida ou ausente".toList]
   else [])
  ++ (if 0 < erros.cicloInvalido then
     [natToChars erros.cicloInvalido ++ " linhas com ciclo inválido ou ausente".toList]
   else [])
  ++ (if 0 < erros.skuInvalido then
     [natToChars erros.skuInvalido ++ " linhas com SKU inválido ou ausente".toList]
   else [])
  ++ (if 0 < erros.valorNegativo then
     [natToChars erros.valorNegativo
       ++ " linhas com valores negativos (foram ajustados para 0)".toList]
   else [])

/-- `normalizeData`: normalize every raw row in order and build the quality report.
`percentualValidas` is the unguarded JS division `(linhasValidas / totalLinhas) * 100`. -/
def normalizeData (parseDate : Str → Option Str) (rawData : List RawRow) :
    List NormalizedRow × DataQuality :=
  let (normalized, erros, linhasValidas, linhasComErro) := accumulateRows parseDate rawData
  (normalized,
   ⟨rawData.length, linhasValidas, linhasComErro,
    jsMul100 (jsDiv (linhasValidas : ℚ) (rawData.length : ℚ)),
    erros, buildAvisos erros⟩)

/-! ### JS `Map` and `Set` as insertion-ordered association lists -/

/-- JS `Map` update: apply `fUpd` to an existing entry's value, or append a new
entry `(k, vNew)` at the end (JS `Map`s preserve insertion order). -/
def alInsertWith {K V : Type} [DecidableEq K] :
    List (K × V) → K → (V → V) → V → List (K × V)
  | [], k, _, vNew => [(k, vNew)]
  | (k', v) :: rest, k, fUpd, vNew =>
    if k' = k then (k', fUpd v) :: rest
    else (k', v) :: alInsertWith rest k fUpd vNew

/-- JS `Map.get` with a default (the `map.get(k) || d` idiom). -/
def alGetD {K V : Type} [DecidableEq K] : List (K × V) → K → V → V
  | [], _, d => d
  | (k', v) :: rest, k, d => if k' = k then v else alGetD rest k d

/-- JS `Map.has`. -/
def alHas {K V : Type} [DecidableEq K] : List (K × V) → K → Bool
  | [], _ => false
  | (k', _) :: rest, k => k' = k || alHas rest k

/-- The values of a JS `Map`, in insertion order. -/
def alValues {K V : Type} (l : List (K × V)) : List V := l.map Prod.snd

/-- JS `Set` insertion: append the element unless it is already present. -/
def slInsert {α : Type} [DecidableEq α] (l : List α) (a : α) : List α :=
  if a ∈ l then l else l ++ [a]

/-- JS `new Set(list)`: the distinct elements, first occurrences first. -/
def jsSetOf {α : Type} [DecidableEq α] (l : List α) : List α :=
  l.foldl slInsert []

/-- The `r.Tipo === 'Venda'` test. -/
def isVenda (r : NormalizedRow) : Bool := r.Tipo = .Venda

/-- The flag-dependent analysis set: all rows, or only `Venda` rows. -/
def dataParaAnalise (data : List NormalizedRow) (incluirBrindesDoacao : Bool) :
    List NormalizedRow :=
  if incluirBrindesDoacao then data else data.filter isVenda

/-! ### Aggregation engine (`aggregations.ts`) -/

/-- The overview metrics record. -/
structure OverviewMetrics where
  receitaTotal : ℚ
  ticketMedioPorCompra : ℚ
  ticketMedioPorCliente : ℚ
  itensVendidos : ℚ
  pontosTotais : ℚ
  numeroTransacoes : ℕ
  numeroClientes : ℕ
  numeroSKUs : ℕ
deriving DecidableEq

/-- Sum the revenue of `Venda` rows grouped by a key. -/
def receitaPorKey (data : List NormalizedRow) (key : NormalizedRow → Str) :
    List (Str × ℚ) :=
  (data.filter isVenda).foldl
    (fun m r => alInsertWith m (key r) (· + r.ValorLinhaVenda) (0 + r.ValorLinhaVenda)) []

/-- `calculateOverviewMetrics`: overview metrics of a record set under the
include-non-sales flag. -/
def calculateOverviewMetrics (data : List NormalizedRow) (incluirBrindesDoacao : Bool) :
    OverviewMetrics :=
  let analise := dataParaAnalise data incluirBrindesDoacao
  let receitaTotal := ((data.filter isVenda).map (·.ValorLinhaVenda)).sum
  let itensVendidos := (analise.map (·.QuantidadeItens)).sum
  let numeroTransacoes := (jsSetOf (data.map (·.TransactionId))).length
  let numeroClientes := (jsSetOf (data.map (·.NomeRevendedora))).length
  let numeroSKUs :=
    (jsSetOf ((analise.filter (fun r => r.SKU ≠ INVALID)).map (·.SKU))).length
  let pontosPorClienteCiclo := data.foldl
    (fun m r =>
      alInsertWith m (r.NomeRevendedora ++ '|' :: r.CicloLabel)
        (fun v => max v r.QuantidadePontos) (max 0 r.QuantidadePontos)) []
  let pontosTotais := (alValues pontosPorClienteCiclo).sum
  let tickets := alValues (receitaPorKey data (·.TransactionId))
  let ticketMedioPorCompra :=
    if 0 < tickets.length then tickets.sum / (tickets.length : ℚ) else 0
  let receitasClientes := alValues (receitaPorKey data (·.NomeRevendedora))
  let ticketMedioPorCliente :=
    if 0 < receitasClientes.length then
      receitasClientes.sum / (receitasClientes.length : ℚ)
    else 0
  ⟨receitaTotal, ticketMedioPorCompra, ticketMedioPorCliente, itensVendidos,
   pontosTotais, numeroTransacoes, numeroClientes, numeroSKUs⟩

/-- Client segment labels. -/
inductive ClientSegment where
  | VIP
  | Potencial
  | Novo
  | CacadorDePromo
  | LogisticaSensivel
  | Ocasional
deriving DecidableEq

/-- The per-client metrics record. -/
structure ClientMetrics where
  NomeRevendedora : Str
  GerenciaCode : Str
  Setor : Str
  numeroTransacoes : ℕ
  numeroCiclosAtivos : ℕ
  itensComprados : ℚ
  receitaTotal : ℚ
  ticketMedioPorCompra : ℚ
  ticketMedioPorCiclo : ℚ
  numeroSKUsDistintos : ℕ
  percentualFrete : ℚ
  percentualRetirada : ℚ
  canalPrincipal : Str
  percentualCanalPrincipal : ℚ
  pontosTotais : ℚ
  score : ℕ
  segmento : ClientSegment
deriving DecidableEq

instance : Inhabited ClientMetrics :=
  ⟨⟨[], [], [], 0, 0, 0, 0, 0, 0, 0, 0, 0, [], 0, 0, 0, .Novo⟩⟩

/-- The per-client accumulator of `calculateClientMetrics`. -/
structure ClienteAcc where
  NomeRevendedora : Str
  GerenciaCode : Str
  Setor : Str
  transacoes : List Str
  ciclos : List Str
  itens : ℚ
  receita : ℚ
  skus : List Str
  entregasFrete : ℕ
  entregasRetirada : ℕ
  entregasUnknown : ℕ
  canais : List (Str × ℕ)
  pontos : ℚ

/-- The flag-filtered quantity contribution of one row. -/
def itensContrib (incluirBrindesDoacao : Bool) (r : NormalizedRow) : ℚ :=
  if incluirBrindesDoacao then r.QuantidadeItens
  else if isVenda r then r.QuantidadeItens else 0

/-- The Venda-only revenue contribution of one row. -/
def receitaContrib (r : NormalizedRow) : ℚ :=
  if isVenda r then r.ValorLinhaVenda else 0

/-- One step of the customer grouping loop of `calculateClientMetrics`. -/
def clienteStep (incluirBrindesDoacao : Bool) (m : List (Str × ClienteAcc))
    (r : NormalizedRow) : List (Str × ClienteAcc) :=
  alInsertWith m r.NomeRevendedora
    (fun c =>
      { c with
        transacoes := slInsert c.transacoes r.TransactionId
        ciclos := slInsert c.ciclos r.CicloLabel
        itens := c.itens + itensContrib incluirBrindesDoacao r
        receita := c.receita + receitaContrib r
        skus := if r.SKU ≠ INVALID then slInsert c.skus r.SKU else c.skus
        entregasFrete :=
          c.entregasFrete + (if r.EntregaCategoria = .FRETE then 1 else 0)
        entregasRetirada :=
          c.entregasRetirada + (if r.EntregaCategoria = .RETIRADA then 1 else 0)
        entregasUnknown :=
          c.entregasUnknown + (if r.EntregaCategoria = .UNKNOWN then 1 else 0)
        canais := alInsertWith c.canais r.MeioCaptacao (· + 1) (0 + 1)
        pontos := max c.pontos r.QuantidadePontos })
    ⟨r.NomeRevendedora, r.GerenciaCode, r.Setor,
     [r.TransactionId], [r.CicloLabel],
     itensContrib incluirBrindesDoacao r, receitaContrib r,
     if r.SKU ≠ INVALID then [r.SKU] else [],
     if r.EntregaCategoria = .FRETE then 1 else 0,
     if r.EntregaCategoria = .RETIRADA then 1 else 0,
     if r.EntregaCategoria = .UNKNOWN then 1 else 0,
     [(r.MeioCaptacao, 1)], r.QuantidadePontos⟩

/-- Group all rows by customer, accumulating the per-client aggregates. -/
def clienteAggregate (data : List NormalizedRow) (incluirBrindesDoacao : Bool) :
    List (Str × ClienteAcc) :=
  data.foldl (clienteStep incluirBrindesDoacao) []

/-- The argmax scan for the dominant channel: strictly larger counts win, so the
first channel with the maximal count is kept (insertion order). -/
def canalScan (canais : List (Str × ℕ)) : Str × ℕ :=
  canais.foldl
    (fun best kv => if best.2 < kv.2 then (kv.1, kv.2) else best)
    (UNKNOWN, 0)

/-- Derive the client metrics (scores and segments still to be filled in). -/
def clienteDerive (c : ClienteAcc) : ClientMetrics :=
  let numeroTransacoes := c.transacoes.length
  let numeroCiclosAtivos := c.ciclos.length
  let ticketMedioPorCompra :=
    if 0 < numeroTransacoes then c.receita / (numeroTransacoes : ℚ) else 0
  let ticketMedioPorCiclo :=
    if 0 < numeroCiclosAtivos then c.receita / (numeroCiclosAtivos : ℚ) else 0
  let totalEntregas := c.entregasFrete + c.entregasRetirada + c.entregasUnknown
  let percentualFrete :=
    if 0 < totalEntregas then ((c.entregasFrete : ℚ) / (totalEntregas : ℚ)) * 100 else 0
  let percentualRetirada :=
    if 0 < totalEntregas then ((c.entregasRetirada : ℚ) / (totalEntregas : ℚ)) * 100 else 0
  let best := canalScan c.canais
  let totalCanais := ((alValues c.canais).foldl (· + ·) 0 : ℕ)
  let percentualCanalPrincipal :=
    if 0 < totalCanais then ((best.2 : ℚ) / (totalCanais : ℚ)) * 100 else 0
  ⟨c.NomeRevendedora, c.GerenciaCode, c.Setor, numeroTransacoes, numeroCiclosAtivos,
   c.itens, c.receita, ticketMedioPorCompra, ticketMedioPorCiclo, c.skus.length,
   percentualFrete, percentualRetirada, best.1, percentualCanalPrincipal,
   c.pontos, 0, .Novo⟩

/-- `percentile` with linear interpolation between order statistics, as in the source. -/
def percentile (arr : List ℚ) (p : ℚ) : ℚ :=
  if arr.length = 0 then 0
  else
    let index : ℚ := (p / 100) * ((arr.length : ℚ) - 1)
    let lower : ℤ := ⌊index⌋
    let upper : ℤ := ⌈index⌉
    let weight : ℚ := index - (lower : ℚ)
    if (arr.length : ℤ) ≤ upper then arr.getD (arr.length - 1) 0
    else arr.getD lower.toNat 0 * (1 - weight) + arr.getD upper.toNat 0 * weight

/-- The sorted revenue list used by `segmentClients`. -/
def receitasSorted (clientes : List ClientMetrics) : List ℚ :=
  List.insertionSort (· ≤ ·) (clientes.map (·.receitaTotal))

/-- The sorted transaction-count list used by `segmentClients`. -/
def frequenciasSorted (clientes : List ClientMetrics) : List ℚ :=
  List.insertionSort (· ≤ ·) (clientes.map (fun c => (c.numeroTransacoes : ℚ)))

/-- Score and segment of one client, given the revenue/frequency percentiles.
Divisions follow JS semantics (`jsDiv`), so zero percentile denominators
produce ±Infinity/NaN comparisons instead of silently guarding. -/
def scoreAndSegment (p50Receita p75Receita p90Receita p50Freq p75Freq : ℚ)
    (c : ClientMetrics) : ClientMetrics :=
  let score : ℕ :=
    (if p90Receita ≤ c.receitaTotal then 40
     else if p75Receita ≤ c.receitaTotal then 30
     else if p50Receita ≤ c.receitaTotal then 20
     else 10)
    + (if p75Freq ≤ (c.numeroTransacoes : ℚ) then 30
       else if p50Freq ≤ (c.numeroTransacoes : ℚ) then 20
       else 10)
    + (if jsGeQ c.ticketMedioPorCompra (jsDiv p75Receita p50Freq) then 20
       else if jsGeQ c.ticketMedioPorCompra (jsDiv p50Receita p50Freq) then 10
       else 0)
    + (if 10 ≤ c.numeroSKUsDistintos then 10
       else if 5 ≤ c.numeroSKUsDistintos then 5
       else 0)
  let segmento : ClientSegment :=
    if p90Receita ≤ c.receitaTotal ∧ p75Freq ≤ (c.numeroTransacoes : ℚ) then .VIP
    else if p75Receita ≤ c.receitaTotal ∨ p75Freq ≤ (c.numeroTransacoes : ℚ) then .Potencial
    else if (c.numeroTransacoes : ℚ) < p50Freq ∧ c.numeroCiclosAtivos ≤ 1 then .Novo
    else if jsLtQ c.ticketMedioPorCompra (jsDiv p50Receita p75Freq)
        ∧ p75Freq < c.itensComprados then .CacadorDePromo
    else if 80 ≤ c.percentualRetirada then .LogisticaSensivel
    else .Ocasional
  { c with score := score, segmento := segmento }

/-- `segmentClients`: percentile-based heuristic scoring and segmentation,
first matching branch wins. -/
def segmentClients (clientes : List ClientMetrics) : List ClientMetrics :=
  if clientes.isEmpty then []
  else
    let receitas := receitasSorted clientes
    let frequencias := frequenciasSorted clientes
    let p50Receita := percentile receitas 50
    let p75Receita := percentile receitas 75
    let p90Receita := percentile receitas 90
    let p50Freq := percentile frequencias 50
    let p75Freq := percentile frequencias 75
    clientes.map (scoreAndSegment p50Receita p75Receita p90Receita p50Freq p75Freq)

/-- The per-client metrics before scoring: the grouped aggregates, derived. -/
def clientesPre (data : List NormalizedRow) (incluirBrindesDoacao : Bool) :
    List ClientMetrics :=
  (alValues (clienteAggregate data incluirBrindesDoacao)).map clienteDerive

/-- `calculateClientMetrics`: group all rows by customer, derive the per-client
metrics, then score and segment. -/
def calculateClientMetrics (data : List NormalizedRow) (incluirBrindesDoacao : Bool) :
    List ClientMetrics :=
  segmentClients (clientesPre data incluirBrindesDoacao)

/-! ### Forecaster (`predictions.ts`) -/

/-- A fitted simple linear regression model. -/
structure LinReg where
  slope : ℚ
  intercept : ℚ
  r2 : ℚ
deriving DecidableEq

/-- `LinearRegression.predict`. -/
def LinReg.predict (m : LinReg) (x : ℚ) : ℚ := m.slope * x + m.intercept

/-- `LinearRegression.fit`: ordinary least squares; `none` models the exception
thrown on mismatched or empty inputs (caught and skipped by the callers). -/
def fitLin (x y : List ℚ) : Option LinReg :=
  if x.length ≠ y.length ∨ x.length = 0 then none
  else
    let n : ℚ := x.length
    let meanX := x.sum / n
    let meanY := y.sum / n
    let numerator := ((x.zip y).map (fun p => (p.1 - meanX) * (p.2 - meanY))).sum
    let denominator := (x.map (fun xi => (xi - meanX) ^ 2)).sum
    let slope := if denominator ≠ 0 then numerator / denominator else 0
    let intercept := meanY - slope * meanX
    let model : LinReg := ⟨slope, intercept, 0⟩
    let ssRes := ((x.zip y).map (fun p => (p.2 - model.predict p.1) ^ 2)).sum
    let ssTot := (y.map (fun yi => (yi - meanY) ^ 2)).sum
    some { model with r2 := if ssTot ≠ 0 then 1 - ssRes / ssTot else 0 }

/-- `LinearRegression.mae`: mean absolute residual. -/
def maeLin (m : LinReg) (x y : List ℚ) : ℚ :=
  if x.length ≠ y.length ∨ x.length = 0 then 0
  else (((x.zip y).map (fun p => |p.2 - m.predict p.1|)).sum) / (x.length : ℚ)

/-- JS `Math.round`: round half towards positive infinity. -/
def jsRound (q : ℚ) : ℤ := ⌊q + 1 / 2⌋

/-- `Math.round(x * 10) / 10`, the one-decimal rounding of the source. -/
def roundTo1 (q : ℚ) : ℚ := (jsRound (q * 10) : ℚ) / 10

/-- One per-cycle demand entry of a SKU. -/
structure CicloQtd where
  cicloLabel : Str
  cicloIndex : ℤ
  quantidade : ℚ
  nomeProduto : Str
deriving DecidableEq

instance : Inhabited CicloQtd := ⟨⟨[], 0, 0, []⟩⟩

/-- One history entry of a prediction (field names as in the source). -/
structure HistEntry where
  ciclo : Str
  cicloDeux : ℤ
  quantidade : ℚ
deriving DecidableEq

/-- Trend labels. -/
inductive Tendencia where
  | crescimento
  | estavel
  | declinio
deriving DecidableEq

/-- Confidence labels. -/
inductive Confianca where
  | alta
  | media
  | baixa
deriving DecidableEq

/-- A per-SKU demand prediction. -/
structure Prediction where
  SKU : Str
  NomeProduto : Str
  historico : List HistEntry
  previsaoProximoCiclo : ℤ
  tendencia : Tendencia
  confianca : Confianca
  erro : ℚ
deriving DecidableEq

/-- Group the analysed rows by SKU and, inside each SKU, by cycle label,
accumulating quantities (skipping invalid SKUs and unparsed cycles). -/
def skuCicloMap (data : List NormalizedRow) (incluirBrindesDoacao : Bool) :
    List (Str × List (Str × CicloQtd)) :=
  (dataParaAnalise data incluirBrindesDoacao).foldl
    (fun m r =>
      if r.SKU = INVALID ∨ r.CicloIndex = -1 then m
      else
        alInsertWith m r.SKU
          (fun cicloMap =>
            alInsertWith cicloMap r.CicloLabel
              (fun e => { e with quantidade := e.quantidade + r.QuantidadeItens })
              ⟨r.CicloLabel, r.CicloIndex, r.QuantidadeItens, r.NomeProduto⟩)
          [(r.CicloLabel, ⟨r.CicloLabel, r.CicloIndex, r.QuantidadeItens, r.NomeProduto⟩)])
    []

/-- The prediction for one SKU's cycle map, or `none` when there is not enough
history (or the regression throws). -/
def predictForSku (minCiclos : ℕ) (sku : Str) (cicloMap : List (Str × CicloQtd)) :
    Option Prediction :=
  let historico := List.insertionSort (fun a b => a.cicloIndex ≤ b.cicloIndex)
    (alValues cicloMap)
  if historico.length < minCiclos then none
  else
    let minIndex := ((historico.map (·.cicloIndex)).min?).getD 0
    let x := historico.map (fun h => ((h.cicloIndex - minIndex : ℤ) : ℚ))
    let y := historico.map (·.quantidade)
    match fitLin x y with
    | none => none
    | some model =>
      let proxCicloX := ((x.max?).getD 0) + 1
      let previsaoRaw := max 0 (model.predict proxCicloX)
      let erro := maeLin model x y
      let mediaY := y.sum / (y.length : ℚ)
      let tendencia : Tendencia :=
        if mediaY * (1 / 10) < model.slope then .crescimento
        else if model.slope < -(mediaY * (1 / 10)) then .declinio
        else .estavel
      let confianca : Confianca :=
        if 7 / 10 ≤ model.r2 then .alta
        else if 4 / 10 ≤ model.r2 then .media
        else .baixa
      some ⟨sku, ((historico.headD default).nomeProduto),
        historico.map (fun h => ⟨h.cicloLabel, h.cicloIndex, h.quantidade⟩),
        jsRound previsaoRaw, tendencia, confianca, roundTo1 erro⟩

/-- `generatePredictions`: per-SKU linear forecasts, sorted descending by forecast. -/
def generatePredictions (data : List NormalizedRow) (incluirBrindesDoacao : Bool)
    (minCiclos : ℕ) : List Prediction :=
  let predictions := (skuCicloMap data incluirBrindesDoacao).filterMap
    (fun kv => predictForSku minCiclos kv.1 kv.2)
  List.insertionSort (fun a b => b.previsaoProximoCiclo ≤ a.previsaoProximoCiclo) predictions

/-! ### Basket builder and association miner (`marketBasket.ts`) -/

/-- A synthetic basket (one per distinct transaction id). -/
structure BasketTransaction where
  transactionId : Str
  items : List Str
  NomeRevendedora : Str
  CicloLabel : Str
  DataCaptacao : Option Str
deriving DecidableEq

/-- `generateBaskets`: group the analysed rows (invalid SKUs discarded) by
transaction id, deduplicating SKUs inside a basket. -/
def generateBaskets (data : List NormalizedRow) (incluirBrindesDoacao : Bool) :
    List BasketTransaction :=
  alValues
    ((dataParaAnalise data incluirBrindesDoacao).foldl
      (fun m r =>
        if r.SKU = INVALID then m
        else
          alInsertWith m r.TransactionId
            (fun b => { b with items := slInsert b.items r.SKU })
            ⟨r.TransactionId, [r.SKU], r.NomeRevendedora, r.CicloLabel, r.DataCaptacao⟩)
      [])

/-- One association-rule row. -/
structure BasketPair where
  itemA : Str
  itemB : Str
  nomeA : Str
  nomeB : Str
  suporte : ℚ
  confianca : ℚ
  lift : ℚ
  occurrences : ℕ
deriving DecidableEq

/-- The string pair key `itemA|itemB` of the source. -/
def pairKey (a b : Str) : Str := a ++ '|' :: b

/-- Model of JS `split(sep)` on character lists. -/
def jsSplit (sep : Char) (s : Str) : List Str :=
  s.foldr
    (fun c acc =>
      if c = sep then [] :: acc
      else
        match acc with
        | h :: t => (c :: h) :: t
        | [] => [[c]])
    [[]]

/-- The pair keys generated by the double loop over a basket's sorted unique items
(`i` outer, `j > i` inner). -/
def allPairKeys : List Str → List Str
  | [] => []
  | a :: rest => rest.map (pairKey a) ++ allPairKeys rest

/-- The first-occurrence SKU-to-product-name map built from the record set. -/
def skuNomesOf (data : List NormalizedRow) : List (Str × Str) :=
  data.foldl
    (fun m r =>
      if r.SKU ≠ INVALID ∧ ¬(alHas m r.SKU) then m ++ [(r.SKU, r.NomeProduto)] else m)
    []

/-- Per-item support counts: the number of baskets containing each item. -/
def itemSupportOf (baskets : List BasketTransaction) : List (Str × ℕ) :=
  baskets.foldl
    (fun m b => (jsSetOf b.items).foldl (fun m' item => alInsertWith m' item (· + 1) (0 + 1)) m)
    []

/-- Sorted unique items of one basket (JS default string sort). -/
def uniqueItemsSorted (b : BasketTransaction) : List Str :=
  List.insertionSort (· ≤ ·) (jsSetOf b.items)

/-- Increment the counter of one key in a counting map. -/
def incKey {K : Type} [DecidableEq K] (m : List (K × ℕ)) (k : K) : List (K × ℕ) :=
  alInsertWith m k (· + 1) (0 + 1)

/-- Add one basket's pair keys to the pair-occurrence counters. -/
def pairStep (m : List (Str × ℕ)) (b : BasketTransaction) : List (Str × ℕ) :=
  (allPairKeys (uniqueItemsSorted b)).foldl incKey m

/-- Pair co-occurrence counts over all baskets. -/
def pairOccurrencesOf (baskets : List BasketTransaction) : List (Str × ℕ) :=
  baskets.foldl pairStep []

/-- Build one association row from a pair-occurrence entry, or drop it when its
support is below the threshold. -/
def pairRow (skuNomes : List (Str × Str)) (itemSupport : List (Str × ℕ))
    (totalBaskets : ℚ) (minSupport : ℚ) (entry : Str × ℕ) : Option BasketPair :=
  let parts := jsSplit '|' entry.1
  let itemA := parts.getD 0 []
  let itemB := parts.getD 1 []
  let supportAB := (entry.2 : ℚ) / totalBaskets
  if supportAB < minSupport then none
  else
    let supportA := ((alGetD itemSupport itemA 0 : ℕ) : ℚ) / totalBaskets
    let supportB := ((alGetD itemSupport itemB 0 : ℕ) : ℚ) / totalBaskets
    let confianca := if 0 < supportA then supportAB / supportA else 0
    let lift := if 0 < supportB then confianca / supportB else 0
    some ⟨itemA, itemB, alGetD skuNomes itemA UNKNOWN, alGetD skuNomes itemB UNKNOWN,
      supportAB, confianca, lift, entry.2⟩

/-- The final comparator of `calculateFrequentPairs` as a `≤`-style relation:
descending lift, ties within 0.01 broken by descending support. -/
def pairLe (a b : BasketPair) : Bool :=
  if 1 / 100 < |b.lift - a.lift| then decide (b.lift ≤ a.lift)
  else decide (b.suporte ≤ a.suporte)

/-- `calculateFrequentPairs`: pairwise co-occurrence statistics over the baskets. -/
def calculateFrequentPairs (baskets : List BasketTransaction)
    (data : List NormalizedRow) (minSupport : ℚ) : List BasketPair :=
  if baskets.isEmpty then []
  else
    let skuNomes := skuNomesOf data
    let totalBaskets : ℚ := baskets.length
    let itemSupport := itemSupportOf baskets
    let pairs := (pairOccurrencesOf baskets).filterMap
      (pairRow skuNomes itemSupport totalBaskets minSupport)
    List.insertionSort (fun a b => pairLe a b) pairs

/-! ### Helper lemmas about the string model -/

theorem digitChar_isDigit {d : ℕ} (h : d < 10) : (Nat.digitChar d).isDigit = true := by
  interval_cases d <;> decide

theorem natToCharsAux_all_digits :
    ∀ (fuel n : ℕ), ∀ c ∈ natToCharsAux fuel n, c.isDigit = true := by
  intro fuel
  induction fuel with
  | zero => intro n c hc; simp [natToCharsAux] at hc
  | succ fuel ih =>
    intro n c hc
    by_cases h : n < 10
    · simp [natToCharsAux, h] at hc
      subst hc; exact digitChar_isDigit h
    · simp only [natToCharsAux, if_neg h, List.mem_append, List.mem_singleton] at hc
      rcases hc with hc | hc
      · exact ih _ c hc
      · subst hc; exact digitChar_isDigit (Nat.mod_lt _ (by norm_num))

theorem natToChars_all_digits (n : ℕ) : ∀ c ∈ natToChars n, c.isDigit = true :=
  natToCharsAux_all_digits (n + 1) n

theorem natToCharsAux_length_le :
    ∀ (fuel n k : ℕ), 1 ≤ k → n < 10 ^ k → (natToCharsAux fuel n).length ≤ k := by
  intro fuel
  induction fuel with
  | zero => intro n k _ _; simp [natToCharsAux]
  | succ fuel ih =>
    intro n k hk hn
    by_cases h : n < 10
    · simp [natToCharsAux, h, hk]
    · have hk2 : 2 ≤ k := by
        by_contra hlt
        have : k = 1 := by omega
        subst this
        simp at hn
        omega
      have hdiv : n / 10 < 10 ^ (k - 1) := by
        rw [Nat.div_lt_iff_lt_mul (by norm_num)]
        calc n < 10 ^ k := hn
        _ = 10 ^ (k - 1) * 10 := by
            rw [← pow_succ]
            congr 1
            omega
      simp only [natToCharsAux, if_neg h, List.length_append, List.length_singleton]
      have := ih (n / 10) (k - 1) (by omega) hdiv
      omega

theorem natToChars_length_le {n k : ℕ} (hk : 1 ≤ k) (hn : n < 10 ^ k) :
    (natToChars n).length ≤ k :=
  natToCharsAux_length_le (n + 1) n k hk hn

theorem natToChars_ne_nil (n : ℕ) : natToChars n ≠ [] := by
  unfold natToChars natToCharsAux
  by_cases h : n < 10
  · simp [h]
  · simp [h]

theorem isWsChar_eq_false_of_isDigit {c : Char} (h : c.isDigit = true) :
    isWsChar c = false := by
  simp only [isWsChar, Bool.or_eq_false_iff, beq_eq_false_iff_ne, ne_eq]
  refine ⟨⟨⟨?_, ?_⟩, ?_⟩, ?_⟩ <;> rintro rfl <;> exact absurd h (by decide)

theorem dropWhile_eq_self_of_all {p : Char → Bool} :
    ∀ {l : Str}, (∀ c ∈ l, p c = false) → l.dropWhile p = l
  | [], _ => rfl
  | c :: rest, h => by
    simp [List.dropWhile_cons, h c (List.mem_cons_self c rest)]

theorem jsTrim_eq_self_of_all {l : Str} (h : ∀ c ∈ l, isWsChar c = false) :
    jsTrim l = l := by
  unfold jsTrim
  rw [dropWhile_eq_self_of_all h,
      dropWhile_eq_self_of_all (fun c hc => h c (List.mem_reverse.mp hc)),
      List.reverse_reverse]

theorem jsTrim_natToChars (n : ℕ) : jsTrim (natToChars n) = natToChars n :=
  jsTrim_eq_self_of_all
    (fun c hc => isWsChar_eq_false_of_isDigit (natToChars_all_digits n c hc))

theorem jsPadStart_length (s : Str) (t : ℕ) (c : Char) :
    (jsPadStart s t c).length = max t s.length := by
  simp [jsPadStart]
  omega

/-! ### Claim theorems: normalizer -/

/-- C1: For every input row, the normalized record's `ValorLinhaVenda` equals its
`ValorPraticado` when the transaction type is `Venda` and equals 0 otherwise; it
is never multiplied by the item quantity.  In particular, a row with quantity 3,
practiced value 55.41 and type `Venda` gets `ValorLinhaVenda` 55.41, not 166.23. -/
theorem C1_valorLinhaVenda_eq_valorPraticado :
    (∀ (parseDate : Str → Option Str) (raw : RawRow) (index : ℕ),
      ((normalizeRow parseDate raw index).1).ValorLinhaVenda =
        (if ((normalizeRow parseDate raw index).1).Tipo = Tipo.Venda
         then ((normalizeRow parseDate raw index).1).ValorPraticado else 0))
    ∧ ((normalizeRow (fun _ => none)
          { RawRow.empty with
            Tipo := some "Venda".toList,
            QuantidadeItens := some (.num 3),
            ValorPraticado := some (.num (5541 / 100)) } 0).1).ValorLinhaVenda
        = 5541 / 100
    ∧ (5541 / 100 : ℚ) ≠ 16623 / 100 := by
  refine ⟨fun parseDate raw index => rfl, ?_, by norm_num⟩
  have ht : normalizeTipo (some "Venda".toList) = Tipo.Venda := by decide
  simp only [normalizeRow, ht, RawRow.empty, sanitizeNumber, if_pos rfl]
  norm_num

/-- C3 counterexample: `normalizeSKU` applied to a 6-digit code returns the code
unpadded — a 6-character SKU that is neither 5 digits long nor the sentinel. -/
theorem C3_counterexample_six_digit_sku :
    normalizeSKU (some (.vStr "123456".toList)) = "123456".toList
    ∧ ("123456".toList).length ≠ 5
    ∧ "123456".toList ≠ INVALID := by
  refine ⟨by decide, by decide, by decide⟩

/-- C3 (amended): the SKU returned by `normalizeSKU` is the sentinel `INVALID`,
or has exactly 5 characters, or has exactly 6 characters (the unpadded 6-digit
case); no other length occurs. -/
theorem C3_sku_length_five_or_six_or_invalid (v : Option RawValue) :
    normalizeSKU v = INVALID
    ∨ (normalizeSKU v).length = 5
    ∨ (normalizeSKU v).length = 6 := by
  match v with
  | none => exact Or.inl rfl
  | some w =>
    simp only [normalizeSKU]
    set numericSku := (jsTrim w.jsToString).filter Char.isDigit with hns
    by_cases h : (numericSku.length == 0 || numericSku.length > 6) = true
    · rw [if_pos h]; exact Or.inl rfl
    · rw [if_neg h]
      simp only [Bool.or_eq_true, beq_iff_eq, decide_eq_true_eq, not_or] at h
      right
      rw [jsPadStart_length]
      omega

/-- C5 counterexample: the source regex matches any five consecutive digits, so an
input whose only digit run is seven digits long yields its first five digits, not
`UNKNOWN` as claimed. -/
theorem C5_counterexample_long_digit_run :
    extractGerenciaCode (some (.vStr "1234567".toList)) = "12345".toList
    ∧ "12345".toList ≠ UNKNOWN := by
  refine ⟨by decide, by decide⟩

theorem find5Digits_shape :
    ∀ {s m : Str}, find5Digits s = some m →
      m.length = 5 ∧ (∀ c ∈ m, c.isDigit = true)
  | [], m => by simp [find5Digits]
  | c :: rest, m => by
    simp only [find5Digits]
    by_cases h : (((c :: rest).take 5).length == 5
        && ((c :: rest).take 5).all Char.isDigit) = true
    · rw [if_pos h]
      intro hm
      cases hm
      simp only [Bool.and_eq_true, beq_iff_eq, List.all_eq_true] at h
      exact ⟨h.1, fun x hx => h.2 x hx⟩
    · rw [if_neg h]
      exact find5Digits_shape

/-- C5 (amended): `extractGerenciaCode` coerces to a trimmed string and returns
the first five consecutive digits found anywhere (so a digit run longer than
five yields its first five digits rather than `UNKNOWN`); absent input, empty
input and digit-free input give `UNKNOWN`.  In particular the three claimed
examples hold, and the seven-digit run gives `"12345"`. -/
theorem C5_extractGerenciaCode_first_five_digits :
    extractGerenciaCode (some (.vStr "13706 - DEPT".toList)) = "13706".toList
    ∧ extractGerenciaCode (some (.vNum 13706)) = "13706".toList
    ∧ extractGerenciaCode (some (.vStr "no digits".toList)) = UNKNOWN
    ∧ extractGerenciaCode (some (.vStr "1234567".toList)) = "12345".toList
    ∧ ∀ g : Option RawValue,
        extractGerenciaCode g = UNKNOWN
        ∨ ((extractGerenciaCode g).length = 5
            ∧ ∀ c ∈ extractGerenciaCode g, c.isDigit = true) := by
  refine ⟨by decide, by decide, by decide, by decide, ?_⟩
  intro g
  match g with
  | none => exact Or.inl rfl
  | some v =>
    simp only [extractGerenciaCode]
    by_cases he : (jsTrim v.jsToString).isEmpty = true
    · rw [if_pos he]; exact Or.inl rfl
    · rw [if_neg he]
      cases hf : find5Digits (jsTrim v.jsToString) with
      | none => exact Or.inl rfl
      | some m => exact Or.inr (find5Digits_shape hf)

/-- C6: `normalizeSKU` of an integer with one to five digits is that integer's
decimal form zero-padded to five characters (hence of length 5), and absent,
empty and all-letter inputs give `INVALID`. -/
theorem C6_normalizeSKU_pads_small_codes :
    (∀ d : ℕ, d < 100000 →
      normalizeSKU (some (.vNum d)) = jsPadStart (natToChars d) 5 '0'
      ∧ (normalizeSKU (some (.vNum d))).length = 5)
    ∧ normalizeSKU none = INVALID
    ∧ normalizeSKU (some (.vStr "".toList)) = INVALID
    ∧ normalizeSKU (some (.vStr "abc".toList)) = INVALID := by
  refine ⟨?_, rfl, by decide, by decide⟩
  intro d hd
  have hall : ∀ c ∈ natToChars d, c.isDigit = true := natToChars_all_digits d
  have hfilter : (natToChars d).filter Char.isDigit = natToChars d :=
    List.filter_eq_self.mpr hall
  have hlen : (natToChars d).length ≤ 5 := natToChars_length_le (by norm_num) (by norm_num [hd])
  have hne : (natToChars d).length ≠ 0 :=
    fun h => natToChars_ne_nil d (List.length_eq_zero.mp h)
  have hres : normalizeSKU (some (.vNum d)) = jsPadStart (natToChars d) 5 '0' := by
    simp only [normalizeSKU, RawValue.jsToString, jsTrim_natToChars, hfilter]
    rw [if_neg]
    simp only [Bool.or_eq_true, beq_iff_eq, decide_eq_true_eq, not_or]
    omega
  refine ⟨hres, ?_⟩
  rw [hres, jsPadStart_length]
  omega

/-- C6 witness: the padding theorem applied at the concrete code 1234. -/
theorem C6_witness_1234 :
    (1234 : ℕ) < 100000 ∧ (normalizeSKU (some (.vNum 1234))).length = 5 :=
  ⟨by norm_num, (C6_normalizeSKU_pads_small_codes.1 1234 (by norm_num)).2⟩

/-! ### Claim theorems: ingestor quality report -/

/-- C4 counterexample: on an empty row sequence the quality report's
`percentualValidas` is the unguarded JS division `(0 / 0) * 100`, i.e. NaN —
a non-finite value, so the ratio is not guarded when `totalLinhas` is 0. -/
theorem C4_counterexample_percent_nan_on_empty :
    (normalizeData (fun _ => none) ([] : List RawRow)).2.percentualValidas = JSNum.nan := by
  simp [normalizeData, accumulateRows, jsDiv, jsMul100]

/-- C4 (amended): ingesting an empty row sequence yields a well-defined quality
report with zero counts, no warnings and an empty output (no exception), but
`percentualValidas` is the unguarded `0 / 0` ratio and is therefore NaN, not a
finite number. -/
theorem C4_empty_ingestion_report (parseDate : Str → Option Str) :
    (normalizeData parseDate []).1 = []
    ∧ (normalizeData parseDate []).2.totalLinhas = 0
    ∧ (normalizeData parseDate []).2.linhasValidas = 0
    ∧ (normalizeData parseDate []).2.linhasComErro = 0
    ∧ (normalizeData parseDate []).2.erros = ⟨0, 0, 0, 0, 0⟩
    ∧ (normalizeData parseDate []).2.avisos = []
    ∧ (normalizeData parseDate []).2.percentualValidas = JSNum.nan := by
  refine ⟨rfl, rfl, rfl, rfl, rfl, rfl, ?_⟩
  simp [normalizeData, accumulateRows, jsDiv, jsMul100]

/-! ### Claim theorems: overview metrics -/

/-- The rows that settle C2: one `Venda` row with SKU 00001 and one `Brinde`
row with SKU 00002. -/
def c2rows : List NormalizedRow :=
  [{ (default : NormalizedRow) with Tipo := .Venda, SKU := "00001".toList },
   { (default : NormalizedRow) with Tipo := .Brinde, SKU := "00002".toList }]

/-- C2 counterexample: the distinct-SKU count is taken over the flag-filtered
set, so the two flag settings disagree on a set holding one `Venda` and one
`Brinde` row with different SKUs. -/
theorem C2_counterexample_sku_count_differs :
    (calculateOverviewMetrics c2rows false).numeroSKUs = 1
    ∧ (calculateOverviewMetrics c2rows true).numeroSKUs = 2
    ∧ (calculateOverviewMetrics c2rows false).numeroSKUs
        ≠ (calculateOverviewMetrics c2rows true).numeroSKUs := by
  refine ⟨by decide, by decide, by decide⟩

theorem slInsert_toFinset {α : Type} [DecidableEq α] (l : List α) (a : α) :
    (slInsert l a).toFinset = insert a l.toFinset := by
  by_cases h : a ∈ l
  · simp [slInsert, h, Finset.insert_eq_self.mpr (List.mem_toFinset.mpr h)]
  · simp [slInsert, h, Finset.insert_eq, Finset.union_comm]

theorem slInsert_nodup {α : Type} [DecidableEq α] {l : List α} (hl : l.Nodup) (a : α) :
    (slInsert l a).Nodup := by
  by_cases h : a ∈ l
  · simpa [slInsert, h] using hl
  · simp [slInsert, h, List.nodup_append, hl]

theorem foldl_slInsert_nodup {α : Type} [DecidableEq α] :
    ∀ (l acc : List α), acc.Nodup → (l.foldl slInsert acc).Nodup
  | [], _, h => h
  | a :: rest, acc, h =>
    foldl_slInsert_nodup rest (slInsert acc a) (slInsert_nodup h a)

theorem foldl_slInsert_toFinset {α : Type} [DecidableEq α] :
    ∀ (l acc : List α), (l.foldl slInsert acc).toFinset = acc.toFinset ∪ l.toFinset
  | [], acc => by simp
  | a :: rest, acc => by
    rw [List.foldl_cons, foldl_slInsert_toFinset rest, slInsert_toFinset]
    simp [Finset.insert_union, Finset.union_insert]

theorem jsSetOf_nodup {α : Type} [DecidableEq α] (l : List α) : (jsSetOf l).Nodup :=
  foldl_slInsert_nodup l [] List.nodup_nil

theorem jsSetOf_toFinset {α : Type} [DecidableEq α] (l : List α) :
    (jsSetOf l).toFinset = l.toFinset := by
  rw [jsSetOf, foldl_slInsert_toFinset]
  simp

/-- The length of a JS `Set` built from a list is the number of its distinct
elements. -/
theorem jsSetOf_length {α : Type} [DecidableEq α] (l : List α) :
    (jsSetOf l).length = l.toFinset.card := by
  rw [← jsSetOf_toFinset, List.toFinset_card_of_nodup (jsSetOf_nodup l)]

theorem jsSetOf_length_mono {α : Type} [DecidableEq α] {l₁ l₂ : List α}
    (h : ∀ a ∈ l₁, a ∈ l₂) : (jsSetOf l₁).length ≤ (jsSetOf l₂).length := by
  rw [jsSetOf_length, jsSetOf_length]
  exact Finset.card_le_card
    (fun a ha => List.mem_toFinset.mpr (h a (List.mem_toFinset.mp ha)))

/-- C2 (amended): `numeroSKUs` is counted over the flag-filtered set, not the
full record set: with the flag off it is the distinct-SKU count of the
`Venda`-only subset, hence at most the flag-on count (the counterexample shows
they can differ), while `numeroClientes` and `numeroTransacoes` are counted
over the full set and are flag-independent. -/
theorem C2_sku_count_is_flag_filtered (data : List NormalizedRow) :
    (calculateOverviewMetrics data false).numeroSKUs
      = (calculateOverviewMetrics (data.filter isVenda) true).numeroSKUs
    ∧ (calculateOverviewMetrics data false).numeroSKUs
        ≤ (calculateOverviewMetrics data true).numeroSKUs
    ∧ (calculateOverviewMetrics data false).numeroClientes
        = (calculateOverviewMetrics data true).numeroClientes
    ∧ (calculateOverviewMetrics data false).numeroTransacoes
        = (calculateOverviewMetrics data true).numeroTransacoes := by
  refine ⟨rfl, ?_, rfl, rfl⟩
  apply jsSetOf_length_mono
  intro a ha
  simp only [dataParaAnalise, List.mem_map, List.mem_filter] at ha ⊢
  obtain ⟨r, ⟨hr, hsku⟩, rfl⟩ := ha
  exact ⟨r, ⟨(List.mem_filter.mp hr).1, hsku⟩, rfl⟩

/-! ### Claim theorems: forecaster -/

instance : Inhabited Prediction := ⟨⟨[], [], [], 0, .estavel, .baixa, 0⟩⟩

/-- A sale row of one SKU in one cycle, used by the forecaster scenarios. -/
def c8Row (lbl : Str) (idx : ℤ) (q : ℚ) : NormalizedRow :=
  { (default : NormalizedRow) with
    Tipo := .Venda, SKU := "12345".toList, NomeProduto := "P".toList,
    CicloLabel := lbl, CicloIndex := idx, QuantidadeItens := q }

/-- Four consecutive cycles with perfectly linear demand 10, 20, 30, 40. -/
def c8LinRows : List NormalizedRow :=
  [c8Row "01/2025".toList 24301 10, c8Row "02/2025".toList 24302 20,
   c8Row "03/2025".toList 24303 30, c8Row "04/2025".toList 24304 40]

/-- Four consecutive cycles with constant demand 10. -/
def c8ConstRows : List NormalizedRow :=
  [c8Row "01/2025".toList 24301 10, c8Row "02/2025".toList 24302 10,
   c8Row "03/2025".toList 24303 10, c8Row "04/2025".toList 24304 10]

/-- The per-cycle demand map of the linear scenario. -/
def c8LinMap : List (Str × CicloQtd) :=
  [("01/2025".toList, ⟨"01/2025".toList, 24301, 10, "P".toList⟩),
   ("02/2025".toList, ⟨"02/2025".toList, 24302, 20, "P".toList⟩),
   ("03/2025".toList, ⟨"03/2025".toList, 24303, 30, "P".toList⟩),
   ("04/2025".toList, ⟨"04/2025".toList, 24304, 40, "P".toList⟩)]

/-- The per-cycle demand map of the constant scenario. -/
def c8ConstMap : List (Str × CicloQtd) :=
  [("01/2025".toList, ⟨"01/2025".toList, 24301, 10, "P".toList⟩),
   ("02/2025".toList, ⟨"02/2025".toList, 24302, 10, "P".toList⟩),
   ("03/2025".toList, ⟨"03/2025".toList, 24303, 10, "P".toList⟩),
   ("04/2025".toList, ⟨"04/2025".toList, 24304, 10, "P".toList⟩)]

/-- C8: on a perfectly linear demand series 10, 20, 30, 40 over four consecutive
cycles the regression has R² = 1 and the forecaster emits confidence `alta` and
next-cycle forecast 50 (with trend `crescimento`); on the constant series
10, 10, 10, 10 it emits trend `estavel` and forecast 10. -/
theorem C8_forecaster_linear_and_constant_series :
    fitLin [0, 1, 2, 3] [10, 20, 30, 40] = some ⟨10, 10, 1⟩
    ∧ generatePredictions c8LinRows false 3 =
        [⟨"12345".toList, "P".toList,
          [⟨"01/2025".toList, 24301, 10⟩, ⟨"02/2025".toList, 24302, 20⟩,
           ⟨"03/2025".toList, 24303, 30⟩, ⟨"04/2025".toList, 24304, 40⟩],
          50, .crescimento, .alta, 0⟩]
    ∧ generatePredictions c8ConstRows false 3 =
        [⟨"12345".toList, "P".toList,
          [⟨"01/2025".toList, 24301, 10⟩, ⟨"02/2025".toList, 24302, 10⟩,
           ⟨"03/2025".toList, 24303, 10⟩, ⟨"04/2025".toList, 24304, 10⟩],
          10, .estavel, .baixa, 0⟩] := by
  have hfitLin : fitLin [0, 1, 2, 3] [10, 20, 30, 40] = some ⟨10, 10, 1⟩ := by
    norm_num [fitLin, LinReg.predict]
  have hfitConst : fitLin [0, 1, 2, 3] [10, 10, 10, 10] = some ⟨0, 10, 0⟩ := by
    norm_num [fitLin, LinReg.predict]
  have hsLin : List.insertionSort (fun a b => a.cicloIndex ≤ b.cicloIndex)
      (alValues c8LinMap) = alValues c8LinMap := by
    apply List.Sorted.insertionSort_eq
    decide
  have hsConst : List.insertionSort (fun a b => a.cicloIndex ≤ b.cicloIndex)
      (alValues c8ConstMap) = alValues c8ConstMap := by
    apply List.Sorted.insertionSort_eq
    decide
  have hpredLin : predictForSku 3 "12345".toList c8LinMap = some
      ⟨"12345".toList, "P".toList,
       [⟨"01/2025".toList, 24301, 10⟩, ⟨"02/2025".toList, 24302, 20⟩,
        ⟨"03/2025".toList, 24303, 30⟩, ⟨"04/2025".toList, 24304, 40⟩],
       50, .crescimento, .alta, 0⟩ := by
    simp only [predictForSku, hsLin]
    norm_num [alValues, c8LinMap, List.min?, List.max?, hfitLin, LinReg.predict,
      maeLin, jsRound, roundTo1, Int.floor_eq_iff]
  have hpredConst : predictForSku 3 "12345".toList c8ConstMap = some
      ⟨"12345".toList, "P".toList,
       [⟨"01/2025".toList, 24301, 10⟩, ⟨"02/2025".toList, 24302, 10⟩,
        ⟨"03/2025".toList, 24303, 10⟩, ⟨"04/2025".toList, 24304, 10⟩],
       10, .estavel, .baixa, 0⟩ := by
    simp only [predictForSku, hsConst]
    norm_num [alValues, c8ConstMap, List.min?, List.max?, hfitConst, LinReg.predict,
      maeLin, jsRound, roundTo1, Int.floor_eq_iff]
  have hmapLin : skuCicloMap c8LinRows false = [("12345".toList, c8LinMap)] := by decide
  have hmapConst : skuCicloMap c8ConstRows false = [("12345".toList, c8ConstMap)] := by decide
  refine ⟨hfitLin, ?_, ?_⟩
  · simp only [generatePredictions]
    rw [hmapLin]
    simp only [List.filterMap_cons, List.filterMap_nil, hpredLin]
    simp [List.insertionSort, List.orderedInsert]
  · simp only [generatePredictions]
    rw [hmapConst]
    simp only [List.filterMap_cons, List.filterMap_nil, hpredConst]
    simp [List.insertionSort, List.orderedInsert]

/-! ### Claim theorems: segmentation -/

/-- Evaluation lemma for `percentile` once the floor and ceiling of the
interpolation index are known. -/
theorem percentile_eval (arr : List ℚ) (p : ℚ) (lo hi : ℕ)
    (hl : arr.length ≠ 0)
    (hflr : ⌊(p / 100) * ((arr.length : ℚ) - 1)⌋ = (lo : ℤ))
    (hclr : ⌈(p / 100) * ((arr.length : ℚ) - 1)⌉ = (hi : ℤ))
    (hhi : hi < arr.length) :
    percentile arr p
      = arr.getD lo 0 * (1 - ((p / 100) * ((arr.length : ℚ) - 1) - (lo : ℚ)))
        + arr.getD hi 0 * ((p / 100) * ((arr.length : ℚ) - 1) - (lo : ℚ)) := by
  have hcond : ¬ ((arr.length : ℤ) ≤ (hi : ℤ)) :=
    not_le.mpr (by exact_mod_cast hhi)
  simp only [percentile, hflr, hclr, Int.toNat_natCast, Int.cast_natCast, if_neg hl,
    if_neg hcond]

theorem getD_map_of_lt {α β : Type} (f : α → β) (l : List α) (n : ℕ) (d : β) (e : α)
    (h : n < l.length) : (l.map f).getD n d = f (l.getD n e) := by
  rw [List.getD_eq_getElem l e h, List.getD_eq_getElem _ d (by simpa using h),
    List.getElem_map]

/-- One synthetic client of the C7 scenario: a name, a revenue, and the uniform
transaction count. -/
def c7C (name : Str) (rev : ℚ) (t : ℕ) : ClientMetrics :=
  { (default : ClientMetrics) with
    NomeRevendedora := name, receitaTotal := rev, numeroTransacoes := t }

/-- Ten clients with revenues 100..1000 in steps of 100 and a uniform
transaction count `t`. -/
def c7Clients (t : ℕ) : List ClientMetrics :=
  [c7C "c01".toList 100 t, c7C "c02".toList 200 t, c7C "c03".toList 300 t,
   c7C "c04".toList 400 t, c7C "c05".toList 500 t, c7C "c06".toList 600 t,
   c7C "c07".toList 700 t, c7C "c08".toList 800 t, c7C "c09".toList 900 t,
   c7C "c10".toList 1000 t]

/-- C7: on ten clients with revenues 100..1000 (step 100) and uniform
transaction count, the p75 frequency percentile equals that uniform count, and
the top-revenue client (the only one at or above the p90 revenue 910) is
classified `VIP` exactly when its transaction count meets the p75 frequency
percentile, `Potencial` otherwise (the first matching branch wins). -/
theorem C7_top_revenue_client_vip_iff_p75_freq (t : ℕ) :
    percentile (frequenciasSorted (c7Clients t)) 75 = (t : ℚ)
    ∧ percentile (receitasSorted (c7Clients t)) 90 = 910
    ∧ (((segmentClients (c7Clients t)).getD 9 default).segmento = ClientSegment.VIP
        ↔ percentile (frequenciasSorted (c7Clients t)) 75 ≤ (t : ℚ))
    ∧ ((t : ℚ) < percentile (frequenciasSorted (c7Clients t)) 75 →
        ((segmentClients (c7Clients t)).getD 9 default).segmento
          = ClientSegment.Potencial) := by
  have hrec : receitasSorted (c7Clients t)
      = [100, 200, 300, 400, 500, 600, 700, 800, 900, 1000] := by
    have hmapr : (c7Clients t).map (·.receitaTotal)
        = [100, 200, 300, 400, 500, 600, 700, 800, 900, 1000] := rfl
    rw [receitasSorted, hmapr]
    apply List.Sorted.insertionSort_eq
    norm_num [List.sorted_cons]
  have hfreqs : frequenciasSorted (c7Clients t) = List.replicate 10 (t : ℚ) := by
    have hmapf : (c7Clients t).map (fun c => (c.numeroTransacoes : ℚ))
        = List.replicate 10 (t : ℚ) := rfl
    rw [frequenciasSorted, hmapf]
    apply List.Sorted.insertionSort_eq
    simp [List.replicate, List.sorted_cons]
  have hp75F : percentile (frequenciasSorted (c7Clients t)) 75 = (t : ℚ) := by
    rw [hfreqs, percentile_eval _ _ 6 7 (by norm_num) (by norm_num)
      (by norm_num [Int.ceil_eq_iff]) (by norm_num)]
    have hg6 : (List.replicate 10 (t : ℚ)).getD 6 0 = (t : ℚ) := rfl
    have hg7 : (List.replicate 10 (t : ℚ)).getD 7 0 = (t : ℚ) := rfl
    rw [hg6, hg7]
    norm_num
    ring_nf
  have hp90R : percentile (receitasSorted (c7Clients t)) 90 = 910 := by
    rw [hrec, percentile_eval _ _ 8 9 (by norm_num) (by norm_num)
      (by norm_num [Int.ceil_eq_iff]) (by norm_num)]
    norm_num
  have h9 : (segmentClients (c7Clients t)).getD 9 default
      = scoreAndSegment (percentile (receitasSorted (c7Clients t)) 50)
          (percentile (receitasSorted (c7Clients t)) 75)
          (percentile (receitasSorted (c7Clients t)) 90)
          (percentile (frequenciasSorted (c7Clients t)) 50)
          (percentile (frequenciasSorted (c7Clients t)) 75)
          (c7C "c10".toList 1000 t) := by
    simp only [segmentClients]
    rw [if_neg (by simp [c7Clients])]
    rw [getD_map_of_lt _ _ _ _ (c7C "c10".toList 1000 t) (by simp [c7Clients])]
    rfl
  have hvip : ((segmentClients (c7Clients t)).getD 9 default).segmento
      = ClientSegment.VIP := by
    rw [h9]
    simp only [scoreAndSegment]
    rw [if_pos]
    constructor
    · rw [hp90R]
      norm_num [c7C]
    · rw [hp75F]
      simp [c7C]
  refine ⟨hp75F, hp90R, ?_, ?_⟩
  · constructor
    · intro _
      rw [hp75F]
    · intro _
      exact hvip
  · intro hlt
    rw [hp75F] at hlt
    exact absurd hlt (lt_irrefl _)

/-! ### Claim theorems: safety of the segmentation divisions -/

theorem alInsertWith_values_forall {K V : Type} [DecidableEq K] {P : V → Prop} :
    ∀ (m : List (K × V)) (k : K) (fUpd : V → V) (vNew : V),
      (∀ v ∈ alValues m, P v) → P vNew → (∀ v, P v → P (fUpd v)) →
      ∀ v ∈ alValues (alInsertWith m k fUpd vNew), P v
  | [], _, _, _, _, hnew, _ => by
    simpa [alInsertWith, alValues] using hnew
  | (k', v') :: rest, k, fUpd, vNew, hm, hnew, hupd => by
    intro v hv
    by_cases hk : k' = k
    · simp only [alInsertWith, if_pos hk, alValues, List.map_cons, List.mem_cons] at hv
      rcases hv with rfl | hv
      · exact hupd v' (hm v' (by simp [alValues]))
      · exact hm v (by simp [alValues, hv])
    · simp only [alInsertWith, if_neg hk, alValues, List.map_cons, List.mem_cons] at hv
      rcases hv with rfl | hv
      · exact hm v (by simp [alValues])
      · exact alInsertWith_values_forall rest k fUpd vNew
          (fun w hw => hm w (by simp [alValues] at hw ⊢; exact Or.inr hw)) hnew hupd v hv

theorem alInsertWith_ne_nil {K V : Type} [DecidableEq K]
    (m : List (K × V)) (k : K) (fUpd : V → V) (vNew : V) :
    alInsertWith m k fUpd vNew ≠ [] := by
  match m with
  | [] => simp [alInsertWith]
  | (k', v') :: rest =>
    by_cases hk : k' = k <;> simp [alInsertWith, hk]

theorem slInsert_ne_nil {α : Type} [DecidableEq α] (l : List α) (a : α)
    (h : l ≠ []) : slInsert l a ≠ [] := by
  by_cases hm : a ∈ l <;> simp [slInsert, hm, h]

/-- Every accumulated client holds at least its first transaction id. -/
theorem clienteAggregate_trans_ne_nil (incluir : Bool) :
    ∀ (data : List NormalizedRow) (acc : List (Str × ClienteAcc)),
      (∀ v ∈ alValues acc, v.transacoes ≠ []) →
      ∀ v ∈ alValues (data.foldl (clienteStep incluir) acc), v.transacoes ≠ []
  | [], acc, hacc => hacc
  | r :: rest, acc, hacc => by
    apply clienteAggregate_trans_ne_nil incluir rest
    intro v hv
    refine alInsertWith_values_forall acc r.NomeRevendedora _ _ hacc ?_ ?_ v hv
    · simp
    · intro w hw
      exact slInsert_ne_nil _ _ hw

theorem foldl_clienteStep_ne_nil (incluir : Bool) :
    ∀ (data : List NormalizedRow) (acc : List (Str × ClienteAcc)),
      acc ≠ [] → data.foldl (clienteStep incluir) acc ≠ []
  | [], _, hacc => hacc
  | r :: rest, acc, _ =>
    foldl_clienteStep_ne_nil incluir rest (clienteStep incluir acc r)
      (alInsertWith_ne_nil _ _ _ _)

/-- The pre-segmentation client list is nonempty whenever the record set is. -/
theorem clientesPre_ne_nil (data : List NormalizedRow) (flag : Bool) (h : data ≠ []) :
    clientesPre data flag ≠ [] := by
  match data with
  | [] => exact absurd rfl h
  | r :: rest =>
    have : clienteAggregate (r :: rest) flag ≠ [] :=
      foldl_clienteStep_ne_nil flag rest (clienteStep flag [] r)
        (alInsertWith_ne_nil _ _ _ _)
    simp only [clientesPre, alValues, ne_eq, List.map_eq_nil_iff]
    intro hc
    exact this hc

/-- Every client produced by the grouping has at least one transaction. -/
theorem clientesPre_numeroTransacoes_pos (data : List NormalizedRow) (flag : Bool) :
    ∀ c ∈ clientesPre data flag, 1 ≤ c.numeroTransacoes := by
  intro c hc
  simp only [clientesPre, List.mem_map] at hc
  obtain ⟨acc, hacc, rfl⟩ := hc
  have htr : acc.transacoes ≠ [] :=
    clienteAggregate_trans_ne_nil flag data [] (by simp [alValues]) acc hacc
  simp only [clienteDerive]
  have : 0 < acc.transacoes.length := List.length_pos.mpr htr
  omega

theorem getD_mem_of_lt {α : Type} (l : List α) (n : ℕ) (d : α) (h : n < l.length) :
    l.getD n d ∈ l := by
  rw [List.getD_eq_getElem l d h]
  exact List.getElem_mem h

/-- When every entry of a nonempty list is at least 1 and `0 ≤ p ≤ 100`, the
interpolated percentile is at least 1. -/
theorem percentile_ge_one {arr : List ℚ} (hne : arr ≠ [])
    (hall : ∀ x ∈ arr, 1 ≤ x) {p : ℚ} (hp0 : 0 ≤ p) (hp1 : p ≤ 100) :
    1 ≤ percentile arr p := by
  have hlen : arr.length ≠ 0 := fun h => hne (List.length_eq_zero.mp h)
  have hlen1 : 1 ≤ arr.length := Nat.one_le_iff_ne_zero.mpr hlen
  have hlenq : (1 : ℚ) ≤ (arr.length : ℚ) := by exact_mod_cast hlen1
  have hidx0 : 0 ≤ (p / 100) * ((arr.length : ℚ) - 1) := by
    apply mul_nonneg (div_nonneg hp0 (by norm_num))
    linarith
  have hidxle : (p / 100) * ((arr.length : ℚ) - 1) ≤ (arr.length : ℚ) - 1 := by
    apply mul_le_of_le_one_left (by linarith)
    rw [div_le_one (by norm_num : (0:ℚ) < 100)]
    exact hp1
  simp only [percentile, if_neg hlen]
  by_cases hup : (arr.length : ℤ) ≤ ⌈(p / 100) * ((arr.length : ℚ) - 1)⌉
  · rw [if_pos hup]
    exact hall _ (getD_mem_of_lt arr _ 0 (by omega))
  · rw [if_neg hup]
    set index : ℚ := (p / 100) * ((arr.length : ℚ) - 1) with hidxdef
    have hfl0 : 0 ≤ ⌊index⌋ := Int.floor_nonneg.mpr hidx0
    have hceil_lt : ⌈index⌉ < (arr.length : ℤ) := lt_of_not_le hup
    have hfl_le : ⌊index⌋ ≤ ⌈index⌉ := Int.floor_le_ceil index
    have hloN : ⌊index⌋.toNat < arr.length := by omega
    have hhiN : ⌈index⌉.toNat < arr.length := by omega
    have ha : 1 ≤ arr.getD ⌊index⌋.toNat 0 := hall _ (getD_mem_of_lt arr _ 0 hloN)
    have hb : 1 ≤ arr.getD ⌈index⌉.toNat 0 := hall _ (getD_mem_of_lt arr _ 0 hhiN)
    have hw0 : 0 ≤ index - (⌊index⌋ : ℚ) := by
      have := Int.floor_le index
      linarith
    have hw1 : index - (⌊index⌋ : ℚ) < 1 := by
      have := Int.lt_floor_add_one index
      linarith
    nlinarith [mul_nonneg (by linarith : (0:ℚ) ≤ arr.getD ⌊index⌋.toNat 0 - 1)
        (by linarith : (0:ℚ) ≤ 1 - (index - (⌊index⌋ : ℚ))),
      mul_nonneg (by linarith : (0:ℚ) ≤ arr.getD ⌈index⌉.toNat 0 - 1) hw0]

/-- All entries of the sorted frequency list of the grouped clients are ≥ 1. -/
theorem frequenciasSorted_ge_one (data : List NormalizedRow) (flag : Bool) :
    ∀ x ∈ frequenciasSorted (clientesPre data flag), 1 ≤ x := by
  intro x hx
  have hperm := List.perm_insertionSort (α := ℚ) (· ≤ ·)
    ((clientesPre data flag).map (fun c => (c.numeroTransacoes : ℚ)))
  rw [frequenciasSorted] at hx
  have hx2 := hperm.mem_iff.mp hx
  simp only [List.mem_map] at hx2
  obtain ⟨c, hc, rfl⟩ := hx2
  exact_mod_cast clientesPre_numeroTransacoes_pos data flag c hc

theorem frequenciasSorted_ne_nil (data : List NormalizedRow) (flag : Bool)
    (h : data ≠ []) : frequenciasSorted (clientesPre data flag) ≠ [] := by
  have hcp := clientesPre_ne_nil data flag h
  rw [frequenciasSorted]
  intro hnil
  have hlen := (List.perm_insertionSort (α := ℚ) (· ≤ ·)
    ((clientesPre data flag).map (fun c => (c.numeroTransacoes : ℚ)))).length_eq
  rw [hnil] at hlen
  simp only [List.length_nil, List.length_map] at hlen
  exact hcp (List.length_eq_zero.mp hlen.symm)

/-- The score assigned by `scoreAndSegment` is the sum of the four bands, so it
is always between 20 and 100. -/
theorem scoreAndSegment_score_bounds (p50R p75R p90R p50F p75F : ℚ)
    (c : ClientMetrics) :
    20 ≤ (scoreAndSegment p50R p75R p90R p50F p75F c).score
    ∧ (scoreAndSegment p50R p75R p90R p50F p75F c).score ≤ 100 := by
  simp only [scoreAndSegment]
  split_ifs <;> constructor <;> norm_num

/-- C10: on any nonempty record list, every grouped client has at least one
transaction, so the frequency percentiles p50 and p75 used by `segmentClients`
are at least 1; hence the JS divisions by those percentiles produce finite
numbers (never a division by zero), and every client's final score lies between
20 and 100. -/
theorem C10_freq_percentiles_positive_and_score_bounded
    (data : List NormalizedRow) (flag : Bool) (h : data ≠ []) :
    (∀ c ∈ clientesPre data flag, 1 ≤ c.numeroTransacoes)
    ∧ 1 ≤ percentile (frequenciasSorted (clientesPre data flag)) 50
    ∧ 1 ≤ percentile (frequenciasSorted (clientesPre data flag)) 75
    ∧ (∀ a : ℚ, jsDiv a (percentile (frequenciasSorted (clientesPre data flag)) 50)
        = JSNum.num (a / percentile (frequenciasSorted (clientesPre data flag)) 50))
    ∧ (∀ a : ℚ, jsDiv a (percentile (frequenciasSorted (clientesPre data flag)) 75)
        = JSNum.num (a / percentile (frequenciasSorted (clientesPre data flag)) 75))
    ∧ ∀ c ∈ calculateClientMetrics data flag, 20 ≤ c.score ∧ c.score ≤ 100 := by
  have h50 : 1 ≤ percentile (frequenciasSorted (clientesPre data flag)) 50 :=
    percentile_ge_one (frequenciasSorted_ne_nil data flag h)
      (frequenciasSorted_ge_one data flag) (by norm_num) (by norm_num)
  have h75 : 1 ≤ percentile (frequenciasSorted (clientesPre data flag)) 75 :=
    percentile_ge_one (frequenciasSorted_ne_nil data flag h)
      (frequenciasSorted_ge_one data flag) (by norm_num) (by norm_num)
  refine ⟨clientesPre_numeroTransacoes_pos data flag, h50, h75, ?_, ?_, ?_⟩
  · intro a
    rw [jsDiv, if_neg (by linarith)]
  · intro a
    rw [jsDiv, if_neg (by linarith)]
  · intro c hc
    simp only [calculateClientMetrics, segmentClients] at hc
    by_cases hemp : (clientesPre data flag).isEmpty
    · rw [if_pos hemp] at hc
      exact absurd hc (List.not_mem_nil c)
    · rw [if_neg hemp] at hc
      simp only [List.mem_map] at hc
      obtain ⟨c0, _, rfl⟩ := hc
      exact scoreAndSegment_score_bounds _ _ _ _ _ c0

/-- C10 witness: the safety theorem applied to a one-row record list. -/
theorem C10_witness_single_row :
    ([(default : NormalizedRow)] : List NormalizedRow) ≠ []
    ∧ 1 ≤ percentile (frequenciasSorted (clientesPre [(default : NormalizedRow)] false)) 75 :=
  ⟨by simp,
   (C10_freq_percentiles_positive_and_score_bounded
      [(default : NormalizedRow)] false (by simp)).2.2.1⟩

/-! ### Claim theorems: association miner -/

theorem alGetD_eq_of_mem_nodup {K V : Type} [DecidableEq K] :
    ∀ {m : List (K × V)} {k : K} {v d : V},
      (m.map Prod.fst).Nodup → (k, v) ∈ m → alGetD m k d = v
  | [], _, _, _, _, hmem => absurd hmem (List.not_mem_nil _)
  | (k', v') :: rest, k, v, d, hnd, hmem => by
    rcases List.mem_cons.mp hmem with heq | hmem2
    · cases heq
      simp [alGetD]
    · have hnd' : (k' :: rest.map Prod.fst).Nodup := hnd
      have hk : k' ≠ k := by
        intro hk
        subst hk
        exact (List.nodup_cons.mp hnd').1 (List.mem_map.mpr ⟨(k', v), hmem2, rfl⟩)
      rw [alGetD, if_neg hk]
      exact alGetD_eq_of_mem_nodup (List.nodup_cons.mp hnd').2 hmem2

theorem mem_keys_alInsertWith {K V : Type} [DecidableEq K] :
    ∀ (m : List (K × V)) (k : K) (f : V → V) (v : V) (x : K),
      x ∈ (alInsertWith m k f v).map Prod.fst ↔ x ∈ m.map Prod.fst ∨ x = k
  | [], k, f, v, x => by simp [alInsertWith]
  | (k', v') :: rest, k, f, v, x => by
    by_cases hk : k' = k
    · simp only [alInsertWith, if_pos hk, List.map_cons, List.mem_cons]
      subst hk
      constructor
      · rintro (rfl | h)
        · exact Or.inr rfl
        · exact Or.inl (Or.inr h)
      · rintro ((rfl | h) | rfl)
        · exact Or.inl rfl
        · exact Or.inr h
        · exact Or.inl rfl
    · simp only [alInsertWith, if_neg hk, List.map_cons, List.mem_cons,
        mem_keys_alInsertWith rest k f v x]
      tauto

theorem alInsertWith_keys_nodup {K V : Type} [DecidableEq K] :
    ∀ (m : List (K × V)) (k : K) (f : V → V) (v : V),
      (m.map Prod.fst).Nodup → ((alInsertWith m k f v).map Prod.fst).Nodup
  | [], k, f, v, _ => by simp [alInsertWith]
  | (k', v') :: rest, k, f, v, hnd => by
    have hnd2 := List.nodup_cons.mp (show (k' :: rest.map Prod.fst).Nodup from hnd)
    by_cases hk : k' = k
    · simpa [alInsertWith, if_pos hk] using hnd
    · simp only [alInsertWith, if_neg hk, List.map_cons, List.nodup_cons]
      refine ⟨?_, alInsertWith_keys_nodup rest k f v hnd2.2⟩
      rw [mem_keys_alInsertWith]
      rintro (h | rfl)
      · exact hnd2.1 h
      · exact hk rfl

theorem alGetD_incKey {K : Type} [DecidableEq K] :
    ∀ (m : List (K × ℕ)) (k k' : K),
      alGetD (incKey m k) k' 0 = alGetD m k' 0 + (if k' = k then 1 else 0)
  | [], k, k' => by
    by_cases h : k = k'
    · subst h; simp [incKey, alInsertWith, alGetD]
    · simp [incKey, alInsertWith, alGetD, h, Ne.symm h]
  | (k₀, v₀) :: rest, k, k' => by
    by_cases h0 : k₀ = k
    · subst h0
      by_cases h1 : k₀ = k'
      · subst h1; simp [incKey, alInsertWith, alGetD]
      · simp [incKey, alInsertWith, alGetD, h1, Ne.symm h1]
    · by_cases h1 : k₀ = k'
      · subst h1
        simp [incKey, alInsertWith, alGetD, h0, Ne.symm h0]
      · simp only [incKey, alInsertWith, if_neg h0, alGetD, if_neg h1]
        exact alGetD_incKey rest k k'

theorem incKey_keys_nodup {K : Type} [DecidableEq K] (m : List (K × ℕ)) (k : K)
    (h : (m.map Prod.fst).Nodup) : ((incKey m k).map Prod.fst).Nodup :=
  alInsertWith_keys_nodup m k _ _ h

/-- The number of occurrences of `k`, written through `countP` so that it is
insensitive to `BEq` instance choices. -/
def countKey {K : Type} [DecidableEq K] (l : List K) (k : K) : ℕ :=
  l.countP (fun x => decide (x = k))

theorem countKey_cons {K : Type} [DecidableEq K] (a : K) (l : List K) (k : K) :
    countKey (a :: l) k = countKey l k + (if a = k then 1 else 0) := by
  simp [countKey, List.countP_cons]

theorem foldl_incKey_getD {K : Type} [DecidableEq K] :
    ∀ (keys : List K) (m : List (K × ℕ)) (k : K),
      alGetD (keys.foldl incKey m) k 0 = alGetD m k 0 + countKey keys k
  | [], m, k => by simp [countKey]
  | h :: t, m, k => by
    rw [List.foldl_cons, foldl_incKey_getD t (incKey m h) k, alGetD_incKey,
      countKey_cons]
    by_cases hk : k = h
    · subst hk
      simp only [if_pos rfl]
      omega
    · simp [hk, Ne.symm hk]

theorem foldl_incKey_keys_nodup {K : Type} [DecidableEq K] :
    ∀ (keys : List K) (m : List (K × ℕ)),
      (m.map Prod.fst).Nodup → ((keys.foldl incKey m).map Prod.fst).Nodup
  | [], _, h => h
  | x :: t, m, h =>
    foldl_incKey_keys_nodup t (incKey m x) (incKey_keys_nodup m x h)

theorem mem_keys_foldl_incKey {K : Type} [DecidableEq K] :
    ∀ (keys : List K) (m : List (K × ℕ)) (x : K),
      x ∈ (keys.foldl incKey m).map Prod.fst → x ∈ m.map Prod.fst ∨ x ∈ keys
  | [], m, x, h => Or.inl h
  | k :: t, m, x, h => by
    rcases mem_keys_foldl_incKey t (incKey m k) x h with h2 | h2
    · rw [incKey, mem_keys_alInsertWith] at h2
      rcases h2 with h3 | rfl
      · exact Or.inl h3
      · exact Or.inr (List.mem_cons_self _ _)
    · exact Or.inr (List.mem_cons_of_mem _ h2)

theorem pairOcc_fold_getD :
    ∀ (baskets : List BasketTransaction) (m : List (Str × ℕ)) (k : Str),
      alGetD (baskets.foldl pairStep m) k 0
        = alGetD m k 0
          + ((baskets.map (fun b => countKey (allPairKeys (uniqueItemsSorted b)) k)).sum)
  | [], m, k => by simp
  | b :: rest, m, k => by
    rw [List.foldl_cons, pairOcc_fold_getD rest (pairStep m b) k, pairStep,
      foldl_incKey_getD]
    dsimp only [List.map_cons, List.sum_cons]
    omega

theorem foldl_pairStep_keys_nodup :
    ∀ (baskets : List BasketTransaction) (m : List (Str × ℕ)),
      (m.map Prod.fst).Nodup → ((baskets.foldl pairStep m).map Prod.fst).Nodup
  | [], _, h => h
  | b :: rest, m, h =>
    foldl_pairStep_keys_nodup rest (pairStep m b) (foldl_incKey_keys_nodup _ _ h)

theorem pairOcc_keys_nodup (baskets : List BasketTransaction) :
    ((pairOccurrencesOf baskets).map Prod.fst).Nodup :=
  foldl_pairStep_keys_nodup baskets [] (by simp)

theorem mem_keys_foldl_pairStep :
    ∀ (baskets : List BasketTransaction) (m : List (Str × ℕ)) (x : Str),
      x ∈ (baskets.foldl pairStep m).map Prod.fst →
      x ∈ m.map Prod.fst ∨ ∃ b ∈ baskets, x ∈ allPairKeys (uniqueItemsSorted b)
  | [], m, x, h => Or.inl h
  | b :: rest, m, x, h => by
    rcases mem_keys_foldl_pairStep rest (pairStep m b) x h with h2 | ⟨b', hb', hx⟩
    · rcases mem_keys_foldl_incKey _ m x h2 with h3 | h3
      · exact Or.inl h3
      · exact Or.inr ⟨b, List.mem_cons_self _ _, h3⟩
    · exact Or.inr ⟨b', List.mem_cons_of_mem _ hb', hx⟩

/-- The value recorded for a key of the pair-occurrence map is the total count
of that key over all baskets' generated pair keys. -/
theorem pairOcc_entry_value {baskets : List BasketTransaction} {key : Str} {occ : ℕ}
    (h : (key, occ) ∈ pairOccurrencesOf baskets) :
    occ = ((baskets.map
      (fun b => countKey (allPairKeys (uniqueItemsSorted b)) key)).sum) := by
  have hget := alGetD_eq_of_mem_nodup (d := 0) (pairOcc_keys_nodup baskets) h
  rw [pairOccurrencesOf] at hget
  rw [← hget, pairOcc_fold_getD]
  simp [alGetD]

/-- The number of baskets whose item list contains both items. -/
def coOccurrences (A B : Str) (baskets : List BasketTransaction) : ℕ :=
  baskets.countP (fun b => decide (A ∈ b.items ∧ B ∈ b.items))

theorem pairKey_inj : ∀ {A A' : Str} {B B' : Str}, '|' ∉ A → '|' ∉ A' →
    pairKey A B = pairKey A' B' → A = A' ∧ B = B'
  | [], [], B, B', _, _, h => by
    simpa [pairKey] using h
  | [], c :: t, B, B', _, hA', h => by
    simp only [pairKey, List.nil_append, List.cons_append, List.cons.injEq] at h
    exact absurd (h.1 ▸ List.mem_cons_self c t) hA'
  | c :: t, [], B, B', hA, _, h => by
    simp only [pairKey, List.nil_append, List.cons_append, List.cons.injEq] at h
    exact absurd (h.1.symm ▸ List.mem_cons_self c t) hA
  | c :: t, c' :: t', B, B', hA, hA', h => by
    simp only [pairKey, List.cons_append, List.cons.injEq] at h
    obtain ⟨rfl, h2⟩ := h
    have := pairKey_inj (fun hm => hA (List.mem_cons_of_mem _ hm))
      (fun hm => hA' (List.mem_cons_of_mem _ hm)) h2
    exact ⟨by rw [this.1], this.2⟩

theorem pairKey_left_cancel {A B B' : Str} (h : pairKey A B = pairKey A B') : B = B' := by
  have := @List.append_cancel_left _ A _ _ (by simpa [pairKey] using h)
  simpa using this

theorem jsSplit_no_sep {sep : Char} : ∀ {l : Str}, sep ∉ l → jsSplit sep l = [l]
  | [], _ => rfl
  | c :: t, h => by
    have hc : ¬ c = sep := fun hh => h (hh ▸ List.mem_cons_self c t)
    have ht := jsSplit_no_sep (fun hm => h (List.mem_cons_of_mem _ hm))
    simp only [jsSplit, List.foldr_cons] at ht ⊢
    rw [ht, if_neg hc]

theorem jsSplit_pairKey : ∀ {A : Str} {B : Str}, '|' ∉ A → '|' ∉ B →
    jsSplit '|' (pairKey A B) = [A, B]
  | [], B, _, hB => by
    have hB2 := @jsSplit_no_sep '|' B hB
    simp only [pairKey, List.nil_append, jsSplit, List.foldr_cons] at hB2 ⊢
    rw [hB2]
    simp
  | c :: t, B, hA, hB => by
    have hc : ¬ c = '|' := fun hh => hA (hh ▸ List.mem_cons_self c t)
    have ht := jsSplit_pairKey (A := t) (fun hm => hA (List.mem_cons_of_mem _ hm)) hB
    simp only [pairKey, List.cons_append, jsSplit, List.foldr_cons] at ht ⊢
    rw [ht, if_neg hc]

theorem mem_jsSetOf {α : Type} [DecidableEq α] {x : α} {l : List α} :
    x ∈ jsSetOf l ↔ x ∈ l := by
  rw [← List.mem_toFinset, jsSetOf_toFinset, List.mem_toFinset]

theorem uniqueItemsSorted_mem {b : BasketTransaction} {x : Str} :
    x ∈ uniqueItemsSorted b ↔ x ∈ b.items := by
  rw [uniqueItemsSorted, (List.perm_insertionSort _ _).mem_iff, mem_jsSetOf]

theorem uniqueItemsSorted_sorted (b : BasketTransaction) :
    (uniqueItemsSorted b).Sorted (· < ·) := by
  apply List.Sorted.lt_of_le (List.sorted_insertionSort _ _)
  exact ((List.perm_insertionSort _ _).nodup_iff).mpr (jsSetOf_nodup _)

theorem mem_allPairKeys_form : ∀ {l : List Str}, l.Sorted (· < ·) →
    ∀ {key : Str}, key ∈ allPairKeys l →
      ∃ A B, key = pairKey A B ∧ A ∈ l ∧ B ∈ l ∧ A < B
  | [], _, key, hk => absurd hk (by simp [allPairKeys])
  | a :: rest, hs, key, hk => by
    rcases List.mem_append.mp
        (show key ∈ rest.map (pairKey a) ++ allPairKeys rest from hk) with hm | hm
    · obtain ⟨b, hb, rfl⟩ := List.mem_map.mp hm
      exact ⟨a, b, rfl, List.mem_cons_self _ _, List.mem_cons_of_mem _ hb,
        (List.sorted_cons.mp hs).1 b hb⟩
    · obtain ⟨A, B, rfl, hA, hB, hAB⟩ :=
        mem_allPairKeys_form (List.sorted_cons.mp hs).2 hm
      exact ⟨A, B, rfl, List.mem_cons_of_mem _ hA, List.mem_cons_of_mem _ hB, hAB⟩

theorem countKey_eq_zero {K : Type} [DecidableEq K] {l : List K} {k : K}
    (h : k ∉ l) : countKey l k = 0 := by
  rw [countKey, List.countP_eq_zero]
  intro a ha hdec
  exact h ((decide_eq_true_eq.mp hdec) ▸ ha)

theorem countKey_nodup {K : Type} [DecidableEq K] :
    ∀ {l : List K}, l.Nodup → ∀ (k : K), countKey l k = if k ∈ l then 1 else 0
  | [], _, k => by simp [countKey]
  | a :: t, hnd, k => by
    rw [countKey_cons, countKey_nodup (List.nodup_cons.mp hnd).2 k]
    by_cases hak : a = k
    · subst hak
      rw [if_neg (List.nodup_cons.mp hnd).1, if_pos rfl, if_pos (List.mem_cons_self _ _)]
    · simp only [if_neg hak, List.mem_cons]
      by_cases hkt : k ∈ t
      · rw [if_pos hkt, if_pos (Or.inr hkt)]
      · rw [if_neg hkt, if_neg (by rintro (rfl | h) <;> [exact hak rfl; exact hkt h])]

/-- The count of a well-formed pair key among the keys generated from a
strictly sorted list of pipe-free items. -/
theorem countKey_allPairKeys :
    ∀ {l : List Str}, l.Sorted (· < ·) → (∀ x ∈ l, '|' ∉ x) →
      ∀ {A B : Str}, '|' ∉ A →
        countKey (allPairKeys l) (pairKey A B)
          = if A ∈ l ∧ B ∈ l ∧ A < B then 1 else 0
  | [], _, _, A, B, _ => by simp [allPairKeys, countKey]
  | a :: rest, hs, hpipe, A, B, hA => by
    have hs2 := List.sorted_cons.mp hs
    have hrestpipe : ∀ x ∈ rest, '|' ∉ x := fun x hx => hpipe x (List.mem_cons_of_mem _ hx)
    have hrestnd : rest.Nodup := hs2.2.nodup
    have hanotin : a ∉ rest := fun ha => absurd (hs2.1 a ha) (lt_irrefl a)
    have hmappart : countKey (rest.map (pairKey a)) (pairKey A B)
        = if a = A ∧ B ∈ rest then 1 else 0 := by
      rw [countKey, List.countP_map]
      by_cases haA : a = A
      · subst haA
        have : ∀ x, ((fun y => decide (y = pairKey a B)) ∘ pairKey a) x
            = decide (x = B) := by
          intro x
          simp only [Function.comp]
          by_cases hx : x = B
          · subst hx; simp
          · have hnk : ¬ pairKey a x = pairKey a B :=
              fun hc => hx (pairKey_left_cancel hc)
            simp [hx, hnk]
        rw [List.countP_congr (fun x _ => by rw [this x])]
        have := countKey_nodup hrestnd B
        rw [countKey] at this
        rw [this]
        by_cases hB : B ∈ rest
        · rw [if_pos hB, if_pos ⟨rfl, hB⟩]
        · rw [if_neg hB, if_neg (fun hc => hB hc.2)]
      · rw [if_neg (fun hc => haA hc.1)]
        rw [List.countP_eq_zero]
        intro x hx hdec
        have heq := decide_eq_true_eq.mp hdec
        exact haA (pairKey_inj (hpipe a (List.mem_cons_self _ _)) hA heq).1
    have hrestpart := countKey_allPairKeys hs2.2 hrestpipe (B := B) hA
    simp only [allPairKeys]
    rw [countKey, List.countP_append, ← countKey, ← countKey, hmappart, hrestpart]
    by_cases haA : a = A
    · subst haA
      by_cases hB : B ∈ rest
      · rw [if_pos ⟨rfl, hB⟩, if_neg (fun hc => hanotin hc.1),
          if_pos ⟨List.mem_cons_self _ _, List.mem_cons_of_mem _ hB, hs2.1 B hB⟩]
      · rw [if_neg (fun hc => hB hc.2), if_neg (fun hc => hanotin hc.1), if_neg]
        rintro ⟨_, hBmem, hAB⟩
        rcases List.mem_cons.mp hBmem with rfl | hBr
        · exact absurd hAB (lt_irrefl _)
        · exact hB hBr
    · rw [if_neg (fun hc => haA hc.1)]
      by_cases hcond : A ∈ rest ∧ B ∈ rest ∧ A < B
      · rw [if_pos hcond,
          if_pos ⟨List.mem_cons_of_mem _ hcond.1, List.mem_cons_of_mem _ hcond.2.1,
            hcond.2.2⟩]
      · rw [if_neg hcond, if_neg]
        rintro ⟨hAmem, hBmem, hAB⟩
        rcases List.mem_cons.mp hAmem with rfl | hAr
        · exact haA rfl
        · rcases List.mem_cons.mp hBmem with rfl | hBr
          · exact absurd (lt_trans (hs2.1 A hAr) hAB) (lt_irrefl _)
          · exact hcond ⟨hAr, hBr, hAB⟩

theorem sum_ite_eq_countP {α : Type} (p : α → Prop) [DecidablePred p] :
    ∀ l : List α, (l.map (fun b => if p b then 1 else 0)).sum
      = l.countP (fun b => decide (p b))
  | [] => rfl
  | a :: t => by
    rw [List.map_cons, List.sum_cons, sum_ite_eq_countP p t, List.countP_cons]
    by_cases ha : p a
    · simp [ha]
      omega
    · simp [ha]

/-- The value recorded for a well-formed pair key is exactly the number of
baskets containing both items. -/
theorem pairOcc_entry_coOccur {baskets : List BasketTransaction}
    (hpipe : ∀ b ∈ baskets, ∀ item ∈ b.items, '|' ∉ item)
    {A B : Str} {occ : ℕ} (hApipe : '|' ∉ A) (hAB : A < B)
    (hentry : (pairKey A B, occ) ∈ pairOccurrencesOf baskets) :
    occ = coOccurrences A B baskets := by
  rw [pairOcc_entry_value hentry]
  have hper : ∀ b2 ∈ baskets,
      countKey (allPairKeys (uniqueItemsSorted b2)) (pairKey A B)
        = if A ∈ b2.items ∧ B ∈ b2.items then 1 else 0 := by
    intro b2 hb2
    rw [countKey_allPairKeys (uniqueItemsSorted_sorted b2)
      (fun x hx => hpipe b2 hb2 x (uniqueItemsSorted_mem.mp hx)) hApipe]
    by_cases hc : A ∈ b2.items ∧ B ∈ b2.items
    · rw [if_pos ⟨uniqueItemsSorted_mem.mpr hc.1,
        uniqueItemsSorted_mem.mpr hc.2, hAB⟩, if_pos hc]
    · rw [if_neg, if_neg hc]
      rintro ⟨h1, h2, _⟩
      exact hc ⟨uniqueItemsSorted_mem.mp h1, uniqueItemsSorted_mem.mp h2⟩
  rw [List.map_congr_left hper, sum_ite_eq_countP, coOccurrences]

theorem exists_entry_of_mem_keys {K V : Type} [DecidableEq K] {m : List (K × V)}
    {k : K} (h : k ∈ m.map Prod.fst) : ∃ v, (k, v) ∈ m := by
  obtain ⟨⟨k2, v⟩, hm, he⟩ := List.mem_map.mp h
  cases he
  exact ⟨v, hm⟩

theorem mem_keys_foldl_incKey_preserve {K : Type} [DecidableEq K] :
    ∀ (keys : List K) (m : List (K × ℕ)) (x : K),
      x ∈ m.map Prod.fst → x ∈ (keys.foldl incKey m).map Prod.fst
  | [], _, _, h => h
  | k :: t, m, x, h =>
    mem_keys_foldl_incKey_preserve t (incKey m k) x
      ((mem_keys_alInsertWith m k _ _ x).mpr (Or.inl h))

theorem mem_keys_foldl_incKey_of_mem {K : Type} [DecidableEq K] :
    ∀ (keys : List K) (m : List (K × ℕ)) (x : K),
      x ∈ keys → x ∈ (keys.foldl incKey m).map Prod.fst
  | [], _, x, h => absurd h (List.not_mem_nil x)
  | k :: t, m, x, h => by
    rcases List.mem_cons.mp h with rfl | hx
    · exact mem_keys_foldl_incKey_preserve t (incKey m x) x
        ((mem_keys_alInsertWith m x _ _ x).mpr (Or.inr rfl))
    · exact mem_keys_foldl_incKey_of_mem t (incKey m k) x hx

theorem mem_keys_foldl_pairStep_preserve :
    ∀ (baskets : List BasketTransaction) (m : List (Str × ℕ)) (x : Str),
      x ∈ m.map Prod.fst → x ∈ (baskets.foldl pairStep m).map Prod.fst
  | [], _, _, h => h
  | b :: rest, m, x, h =>
    mem_keys_foldl_pairStep_preserve rest (pairStep m b) x
      (mem_keys_foldl_incKey_preserve _ m x h)

theorem mem_keys_pairOcc_of :
    ∀ {baskets : List BasketTransaction} (m : List (Str × ℕ)) {b : BasketTransaction}
      {key : Str}, b ∈ baskets → key ∈ allPairKeys (uniqueItemsSorted b) →
      key ∈ (baskets.foldl pairStep m).map Prod.fst := by
  intro baskets
  induction baskets with
  | nil => intro m b key hb; exact absurd hb (List.not_mem_nil b)
  | cons b0 rest ih =>
    intro m b key hb hkey
    rcases List.mem_cons.mp hb with rfl | hb2
    · exact mem_keys_foldl_pairStep_preserve rest (pairStep m b) key
        (mem_keys_foldl_incKey_of_mem _ m key hkey)
    · exact ih (pairStep m b0) hb2 hkey

theorem mem_allPairKeys_of :
    ∀ {l : List Str}, l.Sorted (· < ·) → ∀ {A B : Str},
      A ∈ l → B ∈ l → A < B → pairKey A B ∈ allPairKeys l
  | [], _, A, _, hA, _, _ => absurd hA (List.not_mem_nil A)
  | a :: rest, hs, A, B, hA, hB, hAB => by
    have hs2 := List.sorted_cons.mp hs
    rcases List.mem_cons.mp hA with rfl | hAr
    · rcases List.mem_cons.mp hB with rfl | hBr
      · exact absurd hAB (lt_irrefl _)
      · refine List.mem_append.mpr (Or.inl ?_)
        exact List.mem_map.mpr ⟨B, hBr, rfl⟩
    · rcases List.mem_cons.mp hB with rfl | hBr
      · exact absurd (lt_trans (hs2.1 A hAr) hAB) (lt_irrefl _)
      · exact List.mem_append.mpr
          (Or.inr (mem_allPairKeys_of hs2.2 hAr hBr hAB))

/-- C9: over pipe-free item identifiers, (1) every pair that
`calculateFrequentPairs` reports has `occurrences` equal to the number of
baskets containing both items, support exactly `occurrences / totalBaskets`,
and support at least the minimum-support threshold; and (2) every ordered pair
of items that co-occurs in at least one basket and whose co-occurrence ratio
meets the threshold is reported, with exactly that support. -/
theorem C9_pair_support_exact_and_thresholded
    (baskets : List BasketTransaction) (data : List NormalizedRow) (minSupport : ℚ)
    (hpipe : ∀ b ∈ baskets, ∀ item ∈ b.items, '|' ∉ item) :
    (∀ p ∈ calculateFrequentPairs baskets data minSupport,
      p.occurrences = coOccurrences p.itemA p.itemB baskets
      ∧ p.suporte = (coOccurrences p.itemA p.itemB baskets : ℚ) / (baskets.length : ℚ)
      ∧ minSupport ≤ p.suporte)
    ∧ (∀ A B : Str, A < B → 1 ≤ coOccurrences A B baskets →
        minSupport ≤ (coOccurrences A B baskets : ℚ) / (baskets.length : ℚ) →
        ∃ p ∈ calculateFrequentPairs baskets data minSupport,
          p.itemA = A ∧ p.itemB = B
          ∧ p.suporte = (coOccurrences A B baskets : ℚ) / (baskets.length : ℚ)
          ∧ p.occurrences = coOccurrences A B baskets) := by
  constructor
  · intro p hp
    by_cases hbe : baskets.isEmpty
    · rw [calculateFrequentPairs, if_pos hbe] at hp
      exact absurd hp (List.not_mem_nil p)
    · simp only [calculateFrequentPairs, if_neg hbe] at hp
      have hp2 := (List.perm_insertionSort (fun a b => pairLe a b) _).mem_iff.mp hp
      obtain ⟨⟨key, occ⟩, hentry, hrow⟩ := List.mem_filterMap.mp hp2
      have hkeymem : key ∈ (pairOccurrencesOf baskets).map Prod.fst :=
        List.mem_map.mpr ⟨(key, occ), hentry, rfl⟩
      rw [pairOccurrencesOf] at hkeymem
      rcases mem_keys_foldl_pairStep baskets [] key hkeymem with h0 | ⟨b, hb, hkey⟩
      · exact absurd h0 (by simp)
      · obtain ⟨A, B, rfl, hAmem, hBmem, hAB⟩ :=
          mem_allPairKeys_form (uniqueItemsSorted_sorted b) hkey
        have hAitems : A ∈ b.items := uniqueItemsSorted_mem.mp hAmem
        have hBitems : B ∈ b.items := uniqueItemsSorted_mem.mp hBmem
        have hApipe : '|' ∉ A := hpipe b hb A hAitems
        have hBpipe : '|' ∉ B := hpipe b hb B hBitems
        have hocc : occ = coOccurrences A B baskets :=
          pairOcc_entry_coOccur hpipe hApipe hAB hentry
        simp only [pairRow, jsSplit_pairKey hApipe hBpipe] at hrow
        by_cases hfil : ((occ : ℚ)) / ((baskets.length : ℚ)) < minSupport
        · rw [if_pos (by simpa using hfil)] at hrow
          cases hrow
        · rw [if_neg (by simpa using hfil)] at hrow
          cases hrow
          refine ⟨?_, ?_, ?_⟩
          · show occ = coOccurrences A B baskets
            exact hocc
          · show ((occ : ℚ)) / ((baskets.length : ℚ))
              = ((coOccurrences A B baskets : ℕ) : ℚ) / ((baskets.length : ℚ))
            rw [hocc]
          · show minSupport ≤ ((occ : ℚ)) / ((baskets.length : ℚ))
            exact not_lt.mp hfil
  · intro A B hAB hk hsup
    have hex : ∃ b ∈ baskets, A ∈ b.items ∧ B ∈ b.items := by
      rw [coOccurrences] at hk
      obtain ⟨b, hb, hpb⟩ := List.countP_pos_iff.mp
        (show 0 < baskets.countP (fun b => decide (A ∈ b.items ∧ B ∈ b.items)) by omega)
      exact ⟨b, hb, of_decide_eq_true hpb⟩
    obtain ⟨b, hb, hAi, hBi⟩ := hex
    have hApipe : '|' ∉ A := hpipe b hb A hAi
    have hBpipe : '|' ∉ B := hpipe b hb B hBi
    have hkey : pairKey A B ∈ allPairKeys (uniqueItemsSorted b) :=
      mem_allPairKeys_of (uniqueItemsSorted_sorted b)
        (uniqueItemsSorted_mem.mpr hAi) (uniqueItemsSorted_mem.mpr hBi) hAB
    have hkeys : pairKey A B ∈ (pairOccurrencesOf baskets).map Prod.fst :=
      mem_keys_pairOcc_of [] hb hkey
    obtain ⟨occ, hentry⟩ := exists_entry_of_mem_keys hkeys
    have hocc : occ = coOccurrences A B baskets :=
      pairOcc_entry_coOccur hpipe hApipe hAB hentry
    have hbe : ¬ baskets.isEmpty = true := by
      intro hemp
      rw [List.isEmpty_iff] at hemp
      subst hemp
      exact absurd hb (List.not_mem_nil b)
    have hnotlt : ¬ (((occ : ℚ)) / ((baskets.length : ℚ)) < minSupport) := by
      rw [hocc]
      exact not_lt.mpr hsup
    have hrow : ∃ q, pairRow (skuNomesOf data) (itemSupportOf baskets)
        ((baskets.length : ℚ)) minSupport (pairKey A B, occ) = some q
        ∧ q.itemA = A ∧ q.itemB = B
        ∧ q.suporte = ((occ : ℚ)) / ((baskets.length : ℚ))
        ∧ q.occurrences = occ := by
      simp only [pairRow, jsSplit_pairKey hApipe hBpipe]
      rw [if_neg (by simpa using hnotlt)]
      exact ⟨_, rfl, rfl, rfl, rfl, rfl⟩
    obtain ⟨q, hq, hqa, hqb, hqs, hqo⟩ := hrow
    simp only [calculateFrequentPairs, if_neg hbe]
    refine ⟨q, ?_, hqa, hqb, by rw [hqs, hocc], by rw [hqo, hocc]⟩
    exact (List.perm_insertionSort (fun a b => pairLe a b) _).mem_iff.mpr
      (List.mem_filterMap.mpr ⟨(pairKey A B, occ), hentry, hq⟩)

/-- The single two-item basket of the C9 witness. -/
def c9basket : BasketTransaction :=
  ⟨"T1".toList, ["00001".toList, "00002".toList], "N".toList, "C".toList, none⟩

/-- The association row reported for the C9 witness basket. -/
def c9pair : BasketPair :=
  ⟨"00001".toList, "00002".toList, UNKNOWN, UNKNOWN, 1, 1, 1, 1⟩

/-- The miner's output on the single two-item basket. -/
theorem c9_eval : calculateFrequentPairs [c9basket] [] (1 / 1000) = [c9pair] := by
  have h1 : pairOccurrencesOf [c9basket] = [("00001|00002".toList, 1)] := by decide
  have h4 : pairRow (skuNomesOf []) (itemSupportOf [c9basket])
      (([c9basket] : List BasketTransaction).length : ℚ) (1 / 1000)
      ("00001|00002".toList, 1) = some c9pair := by
    have hsplit : jsSplit '|' ("00001|00002".toList)
        = ["00001".toList, "00002".toList] := by decide
    have hga : alGetD (itemSupportOf [c9basket]) ("00001".toList) 0 = 1 := by decide
    have hgb : alGetD (itemSupportOf [c9basket]) ("00002".toList) 0 = 1 := by decide
    simp only [pairRow, hsplit]
    norm_num [hga, hgb, c9pair, skuNomesOf, alGetD]
  simp only [calculateFrequentPairs]
  rw [if_neg (by decide), h1]
  simp only [List.filterMap_cons, List.filterMap_nil, h4]
  simp [List.insertionSort, List.orderedInsert]

/-- C9 witness: the support theorem applied to the single two-item basket. -/
theorem C9_witness_two_item_basket :
    (∀ b ∈ [c9basket], ∀ item ∈ b.items, '|' ∉ item)
    ∧ c9pair ∈ calculateFrequentPairs [c9basket] [] (1 / 1000)
    ∧ (c9pair.occurrences = coOccurrences c9pair.itemA c9pair.itemB [c9basket]
        ∧ c9pair.suporte
            = (coOccurrences c9pair.itemA c9pair.itemB [c9basket] : ℚ)
              / (([c9basket] : List BasketTransaction).length : ℚ)
        ∧ 1 / 1000 ≤ c9pair.suporte) := by
  have hpipe : ∀ b ∈ [c9basket], ∀ item ∈ b.items, '|' ∉ item := by decide
  have hmem : c9pair ∈ calculateFrequentPairs [c9basket] [] (1 / 1000) := by
    rw [c9_eval]
    exact List.mem_singleton.mpr rfl
  exact ⟨hpipe, hmem,
    (C9_pair_support_exact_and_thresholded [c9basket] [] (1 / 1000) hpipe).1 c9pair hmem⟩

end Circle
